import Mathlib

/-!
# Session state machine of the Gomoku web client

A shallow embedding of `src/web/js/game.js` (class `GameState`), of
`src/web/js/engine-interface.js` (class `EngineInterface`) and of the branch of
`GomokuApp._aiMove` in `src/web/js/app.js` that checks the engine's move.

Modelling conventions.
* JavaScript numbers that hold integers (indices, counters, result and side
  codes) are mathematical integers `Int`; every value the session computes is
  far below `2^53`, where doubles are exact.
* A number the channel reads from text with `parseInt` is a `JSNumber`: its
  value is tracked exactly only below `2^53` in magnitude.
* `board` is a `Uint8Array(225)`: a fixed-length array of bytes.  Reading an
  index outside the array gives `undefined` (`none`), writing outside the
  array is ignored, and a written value is stored modulo `256`.
* A method that assigns fields is a function from the session before the call
  to the session after the call.
-/

namespace Gomoku

set_option maxRecDepth 1000000

/-! ## Constants -/

def BOARD_SIZE : Int := 15
def TOTAL_CELLS : Int := BOARD_SIZE * BOARD_SIZE

def CELL_EMPTY : Nat := 0
def CELL_BLACK : Nat := 1
def CELL_WHITE : Nat := 2

def GAME_ONGOING : Int := -1
def GAME_BLACK_WIN : Int := 1
def GAME_WHITE_WIN : Int := 0
def GAME_DRAW : Int := 2

def SIDE_BLACK : Int := 0
def SIDE_WHITE : Int := 1

/-! ## The board: `new Uint8Array(TOTAL_CELLS)` -/

/-- A `Uint8Array` of length `TOTAL_CELLS` (225). -/
structure Board where
  cells : List Nat
  size_eq : cells.length = 225

namespace Board

/-- The array `new Uint8Array(TOTAL_CELLS)`: every byte is zero. -/
def zero : Board := ⟨List.replicate 225 0, List.length_replicate 225 0⟩

/-- The read `board[i]`: the byte at `i`, or `undefined` outside the array. -/
def get (b : Board) (i : Int) : Option Nat :=
  if 0 ≤ i then b.cells[i.toNat]? else none

/-- The assignment `board[i] = v`: ignored outside the array. -/
def set (b : Board) (i : Int) (v : Nat) : Board :=
  if 0 ≤ i ∧ i < 225 then
    ⟨b.cells.set i.toNat (v % 256), by rw [List.length_set]; exact b.size_eq⟩
  else b

end Board

/-! ## Engine responses handed to `updateResult` -/

/-- The JavaScript values `updateResult` tells apart: a string; a truthy
non-string value together with the value of its `result` property (`undefined`
when it has none); and every falsy non-string value (`undefined`, `null`, `0`,
`false`).  A response is a finite value: its chain of `result` properties
ends. -/
inductive JSVal where
  | str (s : String)
  | obj (result : JSVal)
  | undefined
  deriving Repr

/-- Truthiness of a JavaScript value. -/
def JSVal.truthy : JSVal → Bool
  | .str s => s.data ≠ []
  | .obj _ => true
  | .undefined => false

/-- Whether the characters `pat` stand at the start of `s`. -/
def startsWithChars : List Char → List Char → Bool
  | [], _ => true
  | _ :: _, [] => false
  | p :: ps, c :: cs => p == c && startsWithChars ps cs

/-- Whether `pat` occurs somewhere in `s`. -/
def includesChars (pat : List Char) : List Char → Bool
  | [] => startsWithChars pat []
  | c :: cs => startsWithChars pat (c :: cs) || includesChars pat cs

/-- The method `String.prototype.includes`. -/
def includes (s pat : String) : Bool := includesChars pat.data s.data

/-! ## The session -/

/-- The fields of a `GameState` object. -/
structure GameState where
  board : Board
  moveCount : Int
  result : Int
  lastMove : Int
  moveHistory : List Int
  currentSide : Int
  humanSide : Int
  movetime : ℚ
  isThinking : Bool
  isGameOver : Bool

namespace GameState

/-- The session `reset()` leaves behind; it assigns every field. -/
def fresh : GameState where
  board := Board.zero
  moveCount := 0
  result := GAME_ONGOING
  lastMove := -1
  moveHistory := []
  currentSide := SIDE_BLACK
  humanSide := SIDE_BLACK
  movetime := 1
  isThinking := false
  isGameOver := false

/-- The method `reset()`. -/
def reset (_self : GameState) : GameState := fresh

/-- The static method `toIndex(row, col)`. -/
def toIndex (row col : Int) : Int := row * BOARD_SIZE + col

/-- The method `isLegalMove(index)`: the returned boolean, and the session
after the call. -/
def isLegalMove (self : GameState) (index : Int) : Bool × GameState :=
  if index < 0 ∨ index ≥ TOTAL_CELLS then (false, self)
  else if self.board.get index ≠ some CELL_EMPTY then (false, self)
  else if self.result ≠ GAME_ONGOING then (false, self)
  else (true, self)

/-- The method `recordMove(index)`. -/
def recordMove (self : GameState) (index : Int) : GameState :=
  let piece := if self.currentSide = SIDE_BLACK then CELL_BLACK else CELL_WHITE
  { self with
    board := self.board.set index piece
    lastMove := index
    moveHistory := self.moveHistory ++ [index]
    moveCount := self.moveCount + 1
    currentSide := 1 - self.currentSide }

/-- The method `updateResult(engineResponse)`. -/
def updateResult (self : GameState) : JSVal → GameState
  | .str s =>
    if includes s "win black" then
      { self with result := GAME_BLACK_WIN, isGameOver := true }
    else if includes s "win white" then
      { self with result := GAME_WHITE_WIN, isGameOver := true }
    else if includes s "draw" then
      { self with result := GAME_DRAW, isGameOver := true }
    else self
  | .obj r => if r.truthy then updateResult self r else self
  | .undefined => self

/-- The table `directions` of `getWinningLine`, in the order it is tried:
horizontal, vertical, diagonal down-right, diagonal down-left. -/
def directions : List (Int × Int) := [(0, 1), (1, 0), (1, 1), (1, -1)]

/-- The inner loop `for (let i = 0; i < 5; i++)` of `getWinningLine`, run over
the remaining values of `i` with the `line` collected so far; it returns the
final `valid` flag and `line`.  Leaving the list early is the `break`. -/
def scanLine (self : GameState) (winner : Nat) (r c dr dc : Int) :
    List Nat → List Int → Bool × List Int
  | [], line => (true, line)
  | i :: rest, line =>
    let nr := r + dr * i
    let nc := c + dc * i
    if nr < 0 ∨ nr ≥ BOARD_SIZE ∨ nc < 0 ∨ nc ≥ BOARD_SIZE then (false, line)
    else if self.board.get (toIndex nr nc) ≠ some winner then (false, line)
    else scanLine self winner r c dr dc rest (line ++ [toIndex nr nc])

/-- The body of the loop over `directions` for one direction `[dr, dc]`: the
line to return, if the scan from `(r, c)` found one. -/
def tryDirection (self : GameState) (winner : Nat) (r c : Int) (d : Int × Int) :
    Option (List Int) :=
  let scanned := scanLine self winner r c d.1 d.2 (List.range 5) []
  if scanned.1 && scanned.2.length == 5 then some scanned.2 else none

/-- The piece `getWinningLine` looks for: `const winner = ...`. -/
def winnerPiece (result : Int) : Nat :=
  if result = GAME_BLACK_WIN then CELL_BLACK else CELL_WHITE

/-- The method `getWinningLine()`; `none` is `null`.  Each `for` loop with a
`return` inside is a search for the first iteration that returns. -/
def getWinningLine (self : GameState) : Option (List Int) :=
  if self.result ≠ GAME_BLACK_WIN ∧ self.result ≠ GAME_WHITE_WIN then none
  else
    let winner := winnerPiece self.result
    (List.range BOARD_SIZE.toNat).findSome? fun (r : Nat) =>
      (List.range BOARD_SIZE.toNat).findSome? fun (c : Nat) =>
        if self.board.get (toIndex r c) ≠ some winner then none
        else directions.findSome? fun d => tryDirection self winner r c d

/-- The method `isHumanTurn()`. -/
def isHumanTurn (self : GameState) : Bool :=
  decide (self.currentSide = self.humanSide) && !self.isGameOver && !self.isThinking

/-- The method `isAITurn()`. -/
def isAITurn (self : GameState) : Bool :=
  decide (self.currentSide ≠ self.humanSide) && !self.isGameOver && !self.isThinking

end GameState

/-! ## Runs of five, as the specification describes them -/

/-- Five consecutive cells from `(r, c)` with step `d`, all on the board and all
holding the piece `w`. -/
def FiveRun (b : Board) (w : Nat) (r c : Int) (d : Int × Int) : Prop :=
  ∀ k : Nat, k < 5 →
    0 ≤ r + d.1 * k ∧ r + d.1 * k < 15 ∧ 0 ≤ c + d.2 * k ∧ c + d.2 * k < 15 ∧
    b.get ((r + d.1 * k) * 15 + (c + d.2 * k)) = some w

/-- The indices of the five cells from `(r, c)` with step `d`, in order. -/
def runIndices (r c : Int) (d : Int × Int) : List Int :=
  (List.range 5).map fun (k : Nat) => (r + d.1 * (k : Int)) * 15 + (c + d.2 * (k : Int))

/-- The order of the scan on (row, column, direction number) triples. -/
def ScanBefore (r' c' d' r c d : Nat) : Prop :=
  r' < r ∨ (r' = r ∧ (c' < c ∨ (c' = c ∧ d' < d)))

/-! ## Sessions reached by play -/

/-- The number of non-empty cells of a board. -/
def Board.occupied (b : Board) : Nat := b.cells.countP fun x => x ≠ CELL_EMPTY

/-- The sessions reached from a freshly reset one by `recordMove` calls whose
index satisfied `isLegalMove` at call time, interleaved with `updateResult`
calls on any response. -/
inductive Reachable : GameState → Prop
  | reset (s : GameState) : Reachable s.reset
  | recordMove (s : GameState) (i : Int) :
      Reachable s → (s.isLegalMove i).1 = true → Reachable (s.recordMove i)
  | updateResult (s : GameState) (x : JSVal) :
      Reachable s → Reachable (s.updateResult x)

/-- The invariant of play: the board, the history, the counter and the side to
move stay in step. -/
structure Consistent (s : GameState) : Prop where
  count : (s.board.occupied : Int) = s.moveCount
  length : (s.moveHistory.length : Int) = s.moveCount
  mem : ∀ i : Int, i ∈ s.moveHistory ↔
    (0 ≤ i ∧ i < 225 ∧ s.board.get i ≠ some CELL_EMPTY)
  nodup : s.moveHistory.Nodup
  side : (s.currentSide = SIDE_BLACK ∧ s.moveCount % 2 = 0) ∨
    (s.currentSide = SIDE_WHITE ∧ s.moveCount % 2 = 1)

/-- A position with two runs of five black stones from cell `(6, 10)`: the
row `100 .. 104` and the column `100, 115, 130, 145, 160`; black has won. -/
def twoRuns : GameState :=
  { GameState.fresh with
    result := GAME_BLACK_WIN
    isGameOver := true
    board := ((((((((Board.zero.set 100 1).set 101 1).set 102 1).set 103 1).set 104 1).set
      115 1).set 130 1).set 145 1).set 160 1 }

/-- The session after the opening move at the centre of the board. -/
def afterCentre : GameState := GameState.fresh.recordMove 112

/-- A fresh session in which the engine has reported a win for black. -/
def blackWon : GameState := GameState.fresh.updateResult (.str "win black")

/-- A call of one of the two mutating methods of the session. -/
inductive Call where
  | recordMove (index : Int)
  | updateResult (engineResponse : JSVal)

/-- The session after one call. -/
def GameState.call (self : GameState) : Call → GameState
  | .recordMove index => self.recordMove index
  | .updateResult engineResponse => self.updateResult engineResponse

/-- The session after a finite sequence of calls, made in order. -/
def GameState.run (self : GameState) (calls : List Call) : GameState :=
  calls.foldl GameState.call self

/-- A fresh session in which the engine is thinking. -/
def thinking : GameState := { GameState.fresh with isThinking := true }

/-- A position whose black stones are the row `100 .. 104`, with two white
stones elsewhere; black has won. -/
def rowOfFive : GameState :=
  { GameState.fresh with
    result := GAME_BLACK_WIN
    isGameOver := true
    board := ((((((Board.zero.set 100 1).set 101 1).set 102 1).set 103 1).set 104 1).set
      85 2).set 105 2 }

/-! ## The engine channel: `src/web/js/engine-interface.js`

Promises are named by the order in which they are created; the channel carries
the state of every promise it has handed out.  A promise is settled at most
once: settling a promise that is no longer pending does nothing. -/

/-- A JavaScript number read from text: `NaN`; negative zero; an integer of
magnitude below `2^53`, which is a double and which `parseInt` reads exactly
(`int 0` is positive zero); or a number of magnitude at least `2^53`, possibly
infinite, of which only the sign is tracked (a digit string that long is
rounded to a double, and beyond 20 significant digits the rounding is left to
the implementation). -/
inductive JSNumber where
  | nan
  | negZero
  | int (n : Int)
  | huge (negative : Bool)
  deriving DecidableEq, Repr

/-- A message posted to the worker with `worker.postMessage`. -/
inductive Outbound where
  | init (wasmUrl : String)
  | update (index : Int)
  | go (iters : Int)
  | reset
  | state
  deriving DecidableEq, Repr

/-- An error a promise is rejected with: `new Error(message)`, or the
`TypeError` the runtime raises for a property access on `null`. -/
inductive JSError where
  | error (message : String)
  | typeError
  deriving DecidableEq, Repr

/-- A property of the object `_parseState` builds: the `board` array, or a
number read by `parseInt`. -/
inductive StateField where
  | board (cells : List JSNumber)
  | number (n : JSNumber)
  deriving DecidableEq, Repr

/-- The value a deferred call is resolved with: the message `data` as it came,
the object `{ result: data, index }`, a move index, or a parsed state. -/
inductive Reply where
  | data (data : Option String)
  | update (result : Option String) (index : Option Int)
  | move (moveIndex : JSNumber)
  | state (parsed : List (String × StateField))
  deriving DecidableEq, Repr

/-- The state of a promise. -/
inductive PromiseState where
  | pending
  | resolved (value : Reply)
  | rejected (reason : JSError)
  deriving DecidableEq, Repr

/-- A call the channel made to one of the handlers `onReady`, `onError`. -/
inductive Notification where
  | ready
  | error (message : Option String)
  deriving DecidableEq, Repr

/-- A message from the worker, `{ type, data, index }`; `data` is a string or
`undefined` (`none`), `index` a number or `undefined`. -/
structure Inbound where
  type : String
  data : Option String
  index : Option Int

/-- The method `String.prototype.split` for a one-character separator. -/
def splitChars (sep : Char) : List Char → List (List Char)
  | [] => [[]]
  | c :: cs =>
    if c = sep then [] :: splitChars sep cs
    else
      match splitChars sep cs with
      | [] => [[c]]
      | w :: ws => (c :: w) :: ws

/-- The white space and line terminator characters `parseInt` skips. -/
def isWhiteSpace (c : Char) : Bool :=
  c.toNat ∈ [0x09, 0x0A, 0x0B, 0x0C, 0x0D, 0x20, 0xA0, 0x1680, 0x2028, 0x2029, 0x202F,
    0x205F, 0x3000, 0xFEFF] || (0x2000 ≤ c.toNat && c.toNat ≤ 0x200A)

/-- The mathematical integer written by the leading decimal digits of `cs`,
continuing from `acc` (`none` while no digit has been read).  This is the
integer `parseInt` reads before it converts it to a number. -/
def leadingDigits : List Char → Option Nat → Option Nat
  | [], acc => acc
  | c :: cs, acc =>
    if 48 ≤ c.toNat ∧ c.toNat ≤ 57 then
      leadingDigits cs (some (acc.getD 0 * 10 + (c.toNat - 48)))
    else acc

/-- The number `parseInt` returns for the sign and the digits it has read:
`NaN` without a digit, negative zero for a negated zero, the exact integer
below `2^53`, and from `2^53` on a double of at least that magnitude. -/
def toNumber (negative : Bool) (mathInt : Option Nat) : JSNumber :=
  match mathInt with
  | none => .nan
  | some n =>
    if n < 9007199254740992 then
      if negative then (if n = 0 then .negZero else .int (-(n : Int))) else .int (n : Int)
    else .huge negative

/-- The function `parseInt(string, 10)` on a string, or on `undefined`
(`none`), which it reads as the text `undefined`. -/
def parseInt (string : Option (List Char)) : JSNumber :=
  match string with
  | none => .nan
  | some cs =>
    match cs.dropWhile isWhiteSpace with
    | '-' :: rest => toNumber true (leadingDigits rest none)
    | '+' :: rest => toNumber false (leadingDigits rest none)
    | rest => toNumber false (leadingDigits rest none)

/-- The fields of an `EngineInterface` object, together with the promises it
has created (`promises`) and the calls it has made to its handlers
(`notified`).  `worker` is `null` or a worker, which is the list of messages
posted to it; `pendingResolve` is `null` or the `{ resolve, reject }` pair of a
promise; `onReady` and `onError` record whether a handler is installed.  The
map `callbacks` is never used. -/
structure EngineInterface where
  worker : Option (List Outbound)
  ready : Bool
  pendingResolve : Option Nat
  onReady : Bool
  onError : Bool
  promises : List PromiseState
  notified : List Notification

namespace EngineInterface

/-- The object the constructor builds. -/
def new : EngineInterface where
  worker := none
  ready := false
  pendingResolve := none
  onReady := false
  onError := false
  promises := []
  notified := []

/-- A call of `resolve` or `reject` of promise `p`: it takes effect only while
the promise is pending. -/
def settle (self : EngineInterface) (p : Nat) (st : PromiseState) : EngineInterface :=
  match self.promises[p]? with
  | some .pending => { self with promises := self.promises.set p st }
  | _ => self

/-- The method `init()`, for a `new Worker(...)` and a `new URL(...)` that
succeed; `wasmUrl` is the computed address.  It returns the new promise. -/
def init (self : EngineInterface) (wasmUrl : String) : Nat × EngineInterface :=
  let p := self.promises.length
  (p, { self with
    promises := self.promises ++ [.pending]
    pendingResolve := some p
    worker := some [.init wasmUrl] })

/-- The common body of `update`, `go`, `reset` and `getState`:
`new Promise((resolve, reject) => { if (!this.ready) return reject(...);
this.pendingResolve = { resolve, reject }; this.worker.postMessage(msg); })`.
It returns the new promise.  When `worker` is `null` the `postMessage` call
throws inside the executor, which rejects the promise. -/
def request (self : EngineInterface) (msg : Outbound) : Nat × EngineInterface :=
  let p := self.promises.length
  let created : EngineInterface := { self with promises := self.promises ++ [.pending] }
  if !created.ready then (p, created.settle p (.rejected (.error "Engine not ready")))
  else
    let stored : EngineInterface := { created with pendingResolve := some p }
    match stored.worker with
    | some sent => (p, { stored with worker := some (sent ++ [msg]) })
    | none => (p, stored.settle p (.rejected .typeError))

/-- The method `update(index)`. -/
def update (self : EngineInterface) (index : Int) : Nat × EngineInterface :=
  self.request (.update index)

/-- The method `go(iters = 10000)`. -/
def go (self : EngineInterface) (iters : Option Int) : Nat × EngineInterface :=
  self.request (.go (iters.getD 10000))

/-- The method `reset()`. -/
def reset (self : EngineInterface) : Nat × EngineInterface :=
  self.request .reset

/-- The method `getState()`. -/
def getState (self : EngineInterface) : Nat × EngineInterface :=
  self.request .state

/-- The method `destroy()`. -/
def destroy (self : EngineInterface) : EngineInterface :=
  match self.worker with
  | some _ => { self with worker := none, ready := false }
  | none => self

/-- The statement `if (this.pendingResolve) { this.pendingResolve.resolve(v);
this.pendingResolve = null; }`, also with `reject` for `resolve`. -/
def settlePending (self : EngineInterface) (st : PromiseState) : EngineInterface :=
  match self.pendingResolve with
  | some p => { self.settle p st with pendingResolve := none }
  | none => self

/-- The handler `worker.onerror` installed by `init()`; `message` is
`e.message`. -/
def workerOnError (self : EngineInterface) (message : String) : EngineInterface :=
  let errorMsg := "Worker error: " ++ message
  let told : EngineInterface :=
    if self.onError then { self with notified := self.notified ++ [.error (some errorMsg)] }
    else self
  told.settlePending (.rejected (.error errorMsg))

/-- The method `_handleMessage(msg)`.  The method `_parseState` is taken as the
parameter `parseState`, which is `none` where it throws.  Where `data.split` or
`_parseState` throws, nothing has been assigned yet and the exception leaves
the handler. -/
def handleMessage (parseState : Option String → Option (List (String × StateField)))
    (self : EngineInterface) (msg : Inbound) : EngineInterface :=
  if msg.type = "ready" then
    let readied : EngineInterface := { self with ready := true }
    let settled := readied.settlePending (.resolved (.data msg.data))
    if settled.onReady then { settled with notified := settled.notified ++ [.ready] }
    else settled
  else if msg.type = "reset" then
    self.settlePending (.resolved (.data msg.data))
  else if msg.type = "update" then
    self.settlePending (.resolved (.update msg.data msg.index))
  else if msg.type = "bestmove" then
    match self.pendingResolve, msg.data with
    | some _, some data =>
      let parts := splitChars ' ' data.data
      let moveIndex := parseInt parts[1]?
      self.settlePending (.resolved (.move moveIndex))
    | _, _ => self
  else if msg.type = "state" then
    match self.pendingResolve, parseState msg.data with
    | some _, some parsed => self.settlePending (.resolved (.state parsed))
    | _, _ => self
  else if msg.type = "error" then
    let told : EngineInterface :=
      if self.onError then { self with notified := self.notified ++ [.error msg.data] }
      else self
    told.settlePending (.rejected (.error (msg.data.getD "")))
  else
    self.settlePending (.resolved (.data msg.data))

end EngineInterface

/-- The outcome `out` of a call on the channel `self` is an immediate rejection
with `reason`: the promise returned is a new one and is rejected, no message
has been posted and `pendingResolve` is as before. -/
def Rejects (self : EngineInterface) (out : Nat × EngineInterface) (reason : JSError) :
    Prop :=
  self.promises[out.1]? = none ∧
  out.2.promises[out.1]? = some (.rejected reason) ∧
  out.2.worker = self.worker ∧
  out.2.pendingResolve = self.pendingResolve

/-- The outcome `out` of a call on the channel `self` is an accepted request:
the promise returned is a new one and is pending, it has become the pending
request, and exactly the message `msg` has been posted after those already
sent. -/
def Accepts (self : EngineInterface) (out : Nat × EngineInterface) (msg : Outbound) :
    Prop :=
  self.promises[out.1]? = none ∧
  out.2.promises[out.1]? = some .pending ∧
  out.2.pendingResolve = some out.1 ∧
  ∃ sent, self.worker = some sent ∧ out.2.worker = some (sent ++ [msg])

/-- What `GomokuApp._aiMove` does with the value `bestMove` that `engine.go`
resolved with. -/
inductive AiMoveBranch where
  | playMove (index : Int)
  | invalidMove
  deriving DecidableEq, Repr

/-- The branch of `GomokuApp._aiMove` on `bestMove`:
`if (bestMove >= 0 && bestMove < 225) { await this._playMove(bestMove); ... }
else { this._setStatus('AI returned invalid move'); }`.  `NaN` fails both
comparisons; a number of magnitude at least `2^53` fails `bestMove < 225` when
positive and `bestMove >= 0` when negative; negative zero passes both, and as
a cell index it is `0`. -/
def GomokuApp.aiMoveBranch (bestMove : JSNumber) : AiMoveBranch :=
  match bestMove with
  | .int n => if n ≥ 0 ∧ n < 225 then .playMove n else .invalidMove
  | .negZero => .playMove 0
  | .nan => .invalidMove
  | .huge _ => .invalidMove

/-- A channel whose worker has reported ready and has been sent nothing since;
no request is pending. -/
def readyEngine : EngineInterface :=
  { EngineInterface.new with worker := some [], ready := true }

/-- The message `{ type: 'bestmove', data: 'bestmove 300' }`. -/
def bestmove300 : Inbound := { type := "bestmove", data := some "bestmove 300", index := none }

/-- The channel `readyEngine` after `update(112)`: that request is pending. -/
def busyEngine : EngineInterface := (readyEngine.update 112).2

/-! ## Reading and writing the board -/

theorem Board.get_set_self (b : Board) (i : Int) (v : Nat)
    (h0 : 0 ≤ i) (h1 : i < 225) : (b.set i v).get i = some (v % 256) := by
  have hlt : i.toNat < b.cells.length := by rw [b.size_eq]; omega
  simp [Board.get, Board.set, h0, h1, hlt]

theorem Board.get_set_other (b : Board) (i j : Int) (v : Nat) (hij : j ≠ i) :
    (b.set i v).get j = b.get j := by
  unfold Board.get Board.set
  by_cases hi : 0 ≤ i ∧ i < 225
  · by_cases hj : 0 ≤ j
    · have hne : i.toNat ≠ j.toNat := by omega
      simp [hi, hj, List.getElem?_set_ne hne]
    · simp [hj]
  · simp [hi]

/-! ## `isLegalMove` and `recordMove` -/

/-- What a legal move is, read off `isLegalMove`. -/
theorem legal_iff (s : GameState) (i : Int) :
    (s.isLegalMove i).1 = true ↔
      (0 ≤ i ∧ i < 225 ∧ s.board.get i = some CELL_EMPTY ∧ s.result = GAME_ONGOING) := by
  unfold GameState.isLegalMove
  simp only [TOTAL_CELLS, BOARD_SIZE]
  by_cases h1 : i < 0 ∨ i ≥ 15 * 15
  · rw [if_pos h1]
    simp only [Bool.false_eq_true, false_iff]
    omega
  · rw [if_neg h1]
    by_cases h2 : s.board.get i ≠ some CELL_EMPTY
    · rw [if_pos h2]
      simp only [Bool.false_eq_true, false_iff]
      tauto
    · rw [if_neg h2]
      by_cases h3 : s.result ≠ GAME_ONGOING
      · rw [if_pos h3]
        simp only [Bool.false_eq_true, false_iff]
        tauto
      · rw [if_neg h3]
        simp only [true_iff]
        push_neg at h1 h2 h3
        exact ⟨by omega, by omega, h2, h3⟩

/-- C1: `isLegalMove(index)` returns true exactly when `0 ≤ index < 225`, the
cell `board[index]` is `CELL_EMPTY` and `result` is `GAME_ONGOING`; the session
after the call is the session before it. -/
theorem isLegalMove_iff (self : GameState) (index : Int) :
    ((self.isLegalMove index).1 = true ↔
      (0 ≤ index ∧ index < 225 ∧ self.board.get index = some CELL_EMPTY ∧
        self.result = GAME_ONGOING)) ∧
    (self.isLegalMove index).2 = self := by
  refine ⟨legal_iff self index, ?_⟩
  unfold GameState.isLegalMove
  split_ifs <;> rfl

/-- C2: for `0 ≤ i < 225`, `recordMove(i)` stores the mover's piece in
`board[i]` (`CELL_BLACK` when `currentSide` was `SIDE_BLACK`, `CELL_WHITE`
otherwise), leaves every other cell as it was, appends `i` to `moveHistory`,
adds one to `moveCount`, flips `currentSide` (black to white, white to black),
and leaves `result`, `isGameOver`, `humanSide` and `isThinking` as they were. -/
theorem recordMove_effect (self : GameState) (i : Int)
    (h0 : 0 ≤ i) (h1 : i < 225) :
    (self.recordMove i).board.get i =
        some (if self.currentSide = SIDE_BLACK then CELL_BLACK else CELL_WHITE) ∧
    (∀ j : Int, j ≠ i → (self.recordMove i).board.get j = self.board.get j) ∧
    (self.recordMove i).moveHistory = self.moveHistory ++ [i] ∧
    (self.recordMove i).moveCount = self.moveCount + 1 ∧
    (self.recordMove i).currentSide = 1 - self.currentSide ∧
    (self.currentSide = SIDE_BLACK → (self.recordMove i).currentSide = SIDE_WHITE) ∧
    (self.currentSide = SIDE_WHITE → (self.recordMove i).currentSide = SIDE_BLACK) ∧
    (self.recordMove i).result = self.result ∧
    (self.recordMove i).isGameOver = self.isGameOver ∧
    (self.recordMove i).humanSide = self.humanSide ∧
    (self.recordMove i).isThinking = self.isThinking := by
  refine ⟨?_, ?_, rfl, rfl, rfl, ?_, ?_, rfl, rfl, rfl, rfl⟩
  · show (self.board.set i _).get i = _
    rw [Board.get_set_self _ _ _ h0 h1]
    split_ifs <;> rfl
  · intro j hj
    exact Board.get_set_other _ _ _ _ hj
  · intro h
    show 1 - self.currentSide = SIDE_WHITE
    rw [h]; rfl
  · intro h
    show 1 - self.currentSide = SIDE_BLACK
    rw [h]; rfl

/-- Witness for C2: the opening move at the centre of a fresh board. -/
theorem recordMove_effect_witness :
    ((0 : Int) ≤ 112 ∧ (112 : Int) < 225) ∧
    (GameState.fresh.recordMove 112).board.get 112 =
        some (if GameState.fresh.currentSide = SIDE_BLACK then CELL_BLACK else CELL_WHITE) ∧
    (∀ j : Int, j ≠ 112 →
      (GameState.fresh.recordMove 112).board.get j = GameState.fresh.board.get j) ∧
    (GameState.fresh.recordMove 112).moveHistory = GameState.fresh.moveHistory ++ [112] ∧
    (GameState.fresh.recordMove 112).moveCount = GameState.fresh.moveCount + 1 ∧
    (GameState.fresh.recordMove 112).currentSide = 1 - GameState.fresh.currentSide ∧
    (GameState.fresh.currentSide = SIDE_BLACK →
      (GameState.fresh.recordMove 112).currentSide = SIDE_WHITE) ∧
    (GameState.fresh.currentSide = SIDE_WHITE →
      (GameState.fresh.recordMove 112).currentSide = SIDE_BLACK) ∧
    (GameState.fresh.recordMove 112).result = GameState.fresh.result ∧
    (GameState.fresh.recordMove 112).isGameOver = GameState.fresh.isGameOver ∧
    (GameState.fresh.recordMove 112).humanSide = GameState.fresh.humanSide ∧
    (GameState.fresh.recordMove 112).isThinking = GameState.fresh.isThinking :=
  ⟨⟨by decide, by decide⟩, recordMove_effect GameState.fresh 112 (by decide) (by decide)⟩

/-! ## The scan of `getWinningLine` -/

theorem scanLine_of_valid (self : GameState) (w : Nat) (r c dr dc : Int) :
    ∀ (is : List Nat) (acc : List Int),
      (GameState.scanLine self w r c dr dc is acc).1 = true →
      (∀ i ∈ is, 0 ≤ r + dr * i ∧ r + dr * i < 15 ∧ 0 ≤ c + dc * i ∧ c + dc * i < 15 ∧
        self.board.get ((r + dr * i) * 15 + (c + dc * i)) = some w) ∧
      (GameState.scanLine self w r c dr dc is acc).2 =
        acc ++ is.map fun (k : Nat) => (r + dr * (k : Int)) * 15 + (c + dc * (k : Int)) := by
  intro is
  induction is with
  | nil => intro acc _; simp [GameState.scanLine]
  | cons i rest ih =>
    intro acc h
    simp only [GameState.scanLine, BOARD_SIZE, GameState.toIndex] at h ⊢
    by_cases hb : r + dr * i < 0 ∨ r + dr * i ≥ 15 ∨ c + dc * i < 0 ∨ c + dc * i ≥ 15
    · rw [if_pos hb] at h; simp at h
    · rw [if_neg hb] at h ⊢
      by_cases hc : self.board.get ((r + dr * i) * 15 + (c + dc * i)) ≠ some w
      · rw [if_pos hc] at h; simp at h
      · rw [if_neg hc] at h ⊢
        obtain ⟨h1, h2⟩ := ih _ h
        push_neg at hb hc
        refine ⟨?_, ?_⟩
        · intro j hj
          rcases List.mem_cons.mp hj with rfl | hj
          · exact ⟨by omega, by omega, by omega, by omega, hc⟩
          · exact h1 j hj
        · rw [h2]; simp

theorem scanLine_of_run (self : GameState) (w : Nat) (r c dr dc : Int) :
    ∀ (is : List Nat) (acc : List Int),
      (∀ i ∈ is, 0 ≤ r + dr * i ∧ r + dr * i < 15 ∧ 0 ≤ c + dc * i ∧ c + dc * i < 15 ∧
        self.board.get ((r + dr * i) * 15 + (c + dc * i)) = some w) →
      GameState.scanLine self w r c dr dc is acc =
        (true, acc ++ is.map fun (k : Nat) => (r + dr * (k : Int)) * 15 + (c + dc * (k : Int))) := by
  intro is
  induction is with
  | nil => intro acc _; simp [GameState.scanLine]
  | cons i rest ih =>
    intro acc h
    obtain ⟨a1, a2, a3, a4, a5⟩ := h i (List.mem_cons_self _ _)
    simp only [GameState.scanLine, BOARD_SIZE, GameState.toIndex]
    have hb : ¬ (r + dr * i < 0 ∨ r + dr * i ≥ 15 ∨ c + dc * i < 0 ∨ c + dc * i ≥ 15) := by
      omega
    rw [if_neg hb, if_neg (not_not.mpr a5),
      ih _ (fun j hj => h j (List.mem_cons_of_mem _ hj))]
    simp

theorem tryDirection_eq_some_iff (self : GameState) (w : Nat) (r c : Int)
    (d : Int × Int) (line : List Int) :
    GameState.tryDirection self w r c d = some line ↔
      FiveRun self.board w r c d ∧ line = runIndices r c d := by
  unfold GameState.tryDirection FiveRun runIndices
  constructor
  · intro h
    simp only [Bool.and_eq_true, beq_iff_eq] at h
    split_ifs at h with hv
    obtain ⟨h1, h2⟩ := scanLine_of_valid self w r c d.1 d.2 (List.range 5) [] hv.1
    refine ⟨fun k hk => h1 k (List.mem_range.mpr hk), ?_⟩
    rw [← Option.some.inj h, h2]; simp
  · rintro ⟨h1, rfl⟩
    rw [scanLine_of_run self w r c d.1 d.2 (List.range 5) []
      (fun i hi => h1 i (List.mem_range.mp hi))]
    simp only [List.nil_append, List.length_map, List.length_range]
    rfl

/-- A search that succeeds stops at a first position: the element there
succeeds and every earlier element fails. -/
theorem findSome_first {α β : Type} (f : α → Option β) (l : List α) (b : β)
    (h : l.findSome? f = some b) :
    ∃ (i : Nat) (a : α), l[i]? = some a ∧ f a = some b ∧
      ∀ (j : Nat) (x : α), j < i → l[j]? = some x → f x = none := by
  obtain ⟨l₁, a, l₂, rfl, hfa, hnone⟩ := List.findSome?_eq_some_iff.mp h
  refine ⟨l₁.length, a, ?_, hfa, ?_⟩
  · rw [List.getElem?_append_right (Nat.le_refl _)]; simp
  · intro j x hj hx
    rw [List.getElem?_append_left hj] at hx
    exact hnone x (List.getElem?_mem hx)

theorem range_getElem_some {n i a : Nat} (h : (List.range n)[i]? = some a) :
    a = i ∧ i < n := by
  obtain ⟨hi, ha⟩ := List.getElem?_eq_some_iff.mp h
  rw [List.length_range] at hi
  rw [List.getElem_range] at ha
  exact ⟨ha.symm, hi⟩

/-- What one cell `(r, c)` contributes to the scan when it contributes
nothing: no direction gives a run from it. -/
theorem cell_none (self : GameState) (w : Nat) (r c : Int)
    (h : (if self.board.get (GameState.toIndex r c) ≠ some w then none
      else GameState.directions.findSome? fun d =>
        GameState.tryDirection self w r c d) = none) :
    ∀ dir ∈ GameState.directions, ¬ FiveRun self.board w r c dir := by
  intro dir hdir hrun
  by_cases hc : self.board.get (GameState.toIndex r c) ≠ some w
  · apply hc
    have h0 := (hrun 0 (by decide)).2.2.2.2
    simpa [GameState.toIndex, BOARD_SIZE] using h0
  · rw [if_neg hc] at h
    have hn := List.findSome?_eq_none_iff.mp h dir hdir
    have hs := (tryDirection_eq_some_iff self w r c dir (runIndices r c dir)).mpr ⟨hrun, rfl⟩
    rw [hn] at hs
    exact Option.noConfusion hs

/-- What one cell `(r, c)` contributes to the scan when it returns a line. -/
theorem cell_some (self : GameState) (w : Nat) (r c : Int) (line : List Int)
    (h : (if self.board.get (GameState.toIndex r c) ≠ some w then none
      else GameState.directions.findSome? fun d =>
        GameState.tryDirection self w r c d) = some line) :
    ∃ (d : Nat) (dir : Int × Int), GameState.directions[d]? = some dir ∧
      FiveRun self.board w r c dir ∧ line = runIndices r c dir ∧
      ∀ (d' : Nat) (dir' : Int × Int), d' < d → GameState.directions[d']? = some dir' →
        ¬ FiveRun self.board w r c dir' := by
  split_ifs at h
  obtain ⟨d, dir, hd, hf, hbefore⟩ := findSome_first _ _ _ h
  obtain ⟨hrun, hline⟩ := (tryDirection_eq_some_iff self w r c dir line).mp hf
  refine ⟨d, dir, hd, hrun, hline, ?_⟩
  intro d' dir' hlt hd' hrun'
  have hn := hbefore d' dir' hlt hd'
  have hs := (tryDirection_eq_some_iff self w r c dir' (runIndices r c dir')).mpr ⟨hrun', rfl⟩
  rw [hn] at hs
  exact Option.noConfusion hs

/-- The scan of `getWinningLine`, read off its result: the returned line is a
run of the winner's piece, and no run comes before it in the scan order. -/
theorem getWinningLine_found (self : GameState) (line : List Int)
    (h : self.getWinningLine = some line) :
    (self.result = GAME_BLACK_WIN ∨ self.result = GAME_WHITE_WIN) ∧
    ∃ (r c d : Nat) (dir : Int × Int), r < 15 ∧ c < 15 ∧
      GameState.directions[d]? = some dir ∧
      FiveRun self.board (GameState.winnerPiece self.result) r c dir ∧
      line = runIndices r c dir ∧
      ∀ (r' c' d' : Nat) (dir' : Int × Int), r' < 15 → c' < 15 →
        GameState.directions[d']? = some dir' → ScanBefore r' c' d' r c d →
        ¬ FiveRun self.board (GameState.winnerPiece self.result) r' c' dir' := by
  unfold GameState.getWinningLine at h
  split_ifs at h with hres
  have hres' : self.result = GAME_BLACK_WIN ∨ self.result = GAME_WHITE_WIN := by tauto
  refine ⟨hres', ?_⟩
  simp only [BOARD_SIZE] at h
  have h15 : (15 : Int).toNat = 15 := rfl
  rw [h15] at h
  obtain ⟨r, r0, hr, hrow, hrows⟩ := findSome_first _ _ _ h
  obtain ⟨rfl, hr15⟩ := range_getElem_some hr
  obtain ⟨c, c0, hc, hcell, hcells⟩ := findSome_first _ _ _ hrow
  obtain ⟨rfl, hc15⟩ := range_getElem_some hc
  obtain ⟨d, dir, hd, hrun, hline, hdirs⟩ := cell_some self _ _ _ line hcell
  refine ⟨r0, c0, d, dir, hr15, hc15, hd, hrun, hline, ?_⟩
  intro r' c' d' dir' hr' hc' hd' hbefore
  have hmem : dir' ∈ GameState.directions := List.getElem?_mem hd'
  rcases hbefore with hlt | ⟨rfl, hlt | ⟨rfl, hlt⟩⟩
  · have hn := hrows r' r' hlt (List.getElem?_range hr')
    have hn' := List.findSome?_eq_none_iff.mp hn c' (List.mem_range.mpr hc')
    exact cell_none self _ _ _ hn' dir' hmem
  · have hn := hcells c' c' hlt (List.getElem?_range hc')
    exact cell_none self _ _ _ hn dir' hmem
  · exact hdirs d' dir' hlt hd'

/-- The scan of `getWinningLine` finds a run whenever the board holds one. -/
theorem getWinningLine_of_run (self : GameState) (r c : Int) (dir : Int × Int)
    (hres : self.result = GAME_BLACK_WIN ∨ self.result = GAME_WHITE_WIN)
    (hdir : dir ∈ GameState.directions)
    (hrun : FiveRun self.board (GameState.winnerPiece self.result) r c dir) :
    self.getWinningLine ≠ none := by
  intro h
  unfold GameState.getWinningLine at h
  have hres' : ¬ (self.result ≠ GAME_BLACK_WIN ∧ self.result ≠ GAME_WHITE_WIN) := by tauto
  rw [if_neg hres'] at h
  simp only [BOARD_SIZE] at h
  have h15 : (15 : Int).toNat = 15 := rfl
  rw [h15] at h
  obtain ⟨hr0, hr1, hc0, hc1, -⟩ := hrun 0 (by decide)
  simp only [Nat.cast_zero, mul_zero, add_zero] at hr0 hr1 hc0 hc1
  have hr : ((r.toNat : Nat) : Int) = r := Int.toNat_of_nonneg hr0
  have hc : ((c.toNat : Nat) : Int) = c := Int.toNat_of_nonneg hc0
  have hn := List.findSome?_eq_none_iff.mp h r.toNat (List.mem_range.mpr (by omega))
  have hn' := List.findSome?_eq_none_iff.mp hn c.toNat (List.mem_range.mpr (by omega))
  rw [hr, hc] at hn'
  exact cell_none self _ r c hn' dir hdir hrun

theorem winnerPiece_eq {result : Int} {piece : Nat}
    (hp : (result = GAME_BLACK_WIN ∧ piece = CELL_BLACK) ∨
      (result = GAME_WHITE_WIN ∧ piece = CELL_WHITE)) :
    GameState.winnerPiece result = piece := by
  rcases hp with ⟨rfl, rfl⟩ | ⟨rfl, rfl⟩ <;> rfl

theorem winnerPiece_cases {result : Int}
    (h : result = GAME_BLACK_WIN ∨ result = GAME_WHITE_WIN) :
    (result = GAME_BLACK_WIN ∧ GameState.winnerPiece result = CELL_BLACK) ∨
      (result = GAME_WHITE_WIN ∧ GameState.winnerPiece result = CELL_WHITE) := by
  rcases h with rfl | rfl
  · exact Or.inl ⟨rfl, rfl⟩
  · exact Or.inr ⟨rfl, rfl⟩

theorem runIndices_getElem (r c : Int) (dir : Int × Int) (k : Nat) (hk : k < 5) :
    (runIndices r c dir)[k]? = some ((r + dir.1 * k) * 15 + (c + dir.2 * k)) := by
  unfold runIndices
  rw [List.getElem?_map, List.getElem?_range hk]
  rfl

theorem directions_getElem {d : Nat} {dir : Int × Int}
    (h : GameState.directions[d]? = some dir) :
    (d = 0 ∧ dir = (0, 1)) ∨ (d = 1 ∧ dir = (1, 0)) ∨
      (d = 2 ∧ dir = (1, 1)) ∨ (d = 3 ∧ dir = (1, -1)) := by
  have hd : d < 4 := by
    obtain ⟨hlt, -⟩ := List.getElem?_eq_some_iff.mp h
    exact hlt
  interval_cases d <;> simp [GameState.directions] at h <;> simp [← h]

/-- A run on the board has one start cell and one direction number. -/
theorem runIndices_inj {r c d r' c' d' : Nat} {dir dir' : Int × Int}
    (hc : c < 15) (hc' : c' < 15)
    (hd : GameState.directions[d]? = some dir)
    (hd' : GameState.directions[d']? = some dir')
    (h : runIndices r c dir = runIndices r' c' dir') :
    r = r' ∧ c = c' ∧ d = d' := by
  have h0 := runIndices_getElem r c dir 0 (by decide)
  have h1 := runIndices_getElem r c dir 1 (by decide)
  rw [h, runIndices_getElem r' c' dir' 0 (by decide)] at h0
  rw [h, runIndices_getElem r' c' dir' 1 (by decide)] at h1
  have e0 := Option.some.inj h0
  have e1 := Option.some.inj h1
  rcases directions_getElem hd with ⟨rfl, rfl⟩ | ⟨rfl, rfl⟩ | ⟨rfl, rfl⟩ | ⟨rfl, rfl⟩ <;>
  rcases directions_getElem hd' with ⟨rfl, rfl⟩ | ⟨rfl, rfl⟩ | ⟨rfl, rfl⟩ | ⟨rfl, rfl⟩ <;>
  simp at e0 e1 <;> omega

/-! ## The winning line: claims -/

/-- C3: when `getWinningLine()` returns a line, the line has exactly 5 indices;
there are a start cell `(r, c)` and a step `(dr, dc)` among `(0,1)`, `(1,0)`,
`(1,1)`, `(1,-1)` such that the `k`-th index is `(r + k*dr)*15 + (c + k*dc)`
with both coordinates on the board, and each of the 5 cells holds the winner's
piece: `CELL_BLACK` when `result` is `GAME_BLACK_WIN`, `CELL_WHITE` when it is
`GAME_WHITE_WIN`. -/
theorem getWinningLine_is_run (self : GameState) (found : List Int)
    (h : self.getWinningLine = some found) :
    found.length = 5 ∧
    ∃ (r c dr dc : Int) (piece : Nat),
      (dr, dc) ∈ [((0 : Int), (1 : Int)), (1, 0), (1, 1), (1, -1)] ∧
      ((self.result = GAME_BLACK_WIN ∧ piece = CELL_BLACK) ∨
        (self.result = GAME_WHITE_WIN ∧ piece = CELL_WHITE)) ∧
      ∀ k : Nat, k < 5 →
        found[k]? = some ((r + k * dr) * 15 + (c + k * dc)) ∧
        0 ≤ r + k * dr ∧ r + k * dr < 15 ∧ 0 ≤ c + k * dc ∧ c + k * dc < 15 ∧
        self.board.get ((r + k * dr) * 15 + (c + k * dc)) = some piece := by
  obtain ⟨hres, r, c, d, dir, -, -, hd, hrun, rfl, -⟩ := getWinningLine_found self found h
  refine ⟨by simp [runIndices], r, c, dir.1, dir.2, GameState.winnerPiece self.result,
    List.getElem?_mem hd, ?_, ?_⟩
  · rcases winnerPiece_cases hres with ⟨h1, h2⟩ | ⟨h1, h2⟩
    · exact Or.inl ⟨h1, h2⟩
    · exact Or.inr ⟨h1, h2⟩
  · intro k hk
    obtain ⟨a1, a2, a3, a4, a5⟩ := hrun k hk
    have e1 : (k : Int) * dir.1 = dir.1 * k := mul_comm _ _
    have e2 : (k : Int) * dir.2 = dir.2 * k := mul_comm _ _
    rw [e1, e2]
    exact ⟨runIndices_getElem r c dir k hk, a1, a2, a3, a4, a5⟩

/-- C4: the line `getWinningLine()` returns is the first run in the scan order.
If the returned run starts at the board cell `(r, c)` and has direction number
`d` (position in the order horizontal, vertical, diagonal down-right, diagonal
down-left), then no start cell and direction `(r', c', d')` that comes before
`(r, c, d)` lexicographically gives 5 on-board cells of the winner's piece. -/
theorem getWinningLine_is_first (self : GameState) (line : List Int)
    (h : self.getWinningLine = some line)
    (r c d : Nat) (dir : Int × Int) (hc : c < 15)
    (hd : [((0 : Int), (1 : Int)), (1, 0), (1, 1), (1, -1)][d]? = some dir)
    (hline : line = runIndices r c dir)
    (piece : Nat)
    (hp : (self.result = GAME_BLACK_WIN ∧ piece = CELL_BLACK) ∨
      (self.result = GAME_WHITE_WIN ∧ piece = CELL_WHITE)) :
    ∀ (r' c' d' : Nat) (dir' : Int × Int),
      [((0 : Int), (1 : Int)), (1, 0), (1, 1), (1, -1)][d']? = some dir' →
      ScanBefore r' c' d' r c d →
      ¬ FiveRun self.board piece r' c' dir' := by
  intro r' c' d' dir' hd' hbefore hrun
  obtain ⟨-, r0, c0, d0, dir0, hr0, hc0, hd0, -, hline0, hfirst⟩ :=
    getWinningLine_found self line h
  rw [hline] at hline0
  obtain ⟨rfl, rfl, rfl⟩ := runIndices_inj hc hc0 hd hd0 hline0
  rw [← winnerPiece_eq hp] at hrun
  obtain ⟨b0, b1, b2, b3, -⟩ := hrun 0 (by decide)
  simp only [Nat.cast_zero, mul_zero, add_zero] at b0 b1 b2 b3
  exact hfirst r' c' d' dir' (by omega) (by omega) hd' hbefore hrun

/-- C5: `getWinningLine()` returns a line exactly when `result` is
`GAME_BLACK_WIN` or `GAME_WHITE_WIN` and the board holds 5 consecutive on-board
cells of the winner's piece along a row, a column or a diagonal; in particular
it returns `null` when `result` is `GAME_ONGOING` or `GAME_DRAW`. -/
theorem getWinningLine_isSome_iff (self : GameState) :
    (self.getWinningLine ≠ none ↔
      ∃ piece : Nat,
        ((self.result = GAME_BLACK_WIN ∧ piece = CELL_BLACK) ∨
          (self.result = GAME_WHITE_WIN ∧ piece = CELL_WHITE)) ∧
        ∃ (r c : Int) (dir : Int × Int),
          dir ∈ [((0 : Int), (1 : Int)), (1, 0), (1, 1), (1, -1)] ∧
          FiveRun self.board piece r c dir) ∧
    (self.result = GAME_ONGOING ∨ self.result = GAME_DRAW → self.getWinningLine = none) := by
  constructor
  · constructor
    · intro h
      obtain ⟨line, hline⟩ := Option.ne_none_iff_exists'.mp h
      obtain ⟨hres, r, c, d, dir, -, -, hd, hrun, -, -⟩ := getWinningLine_found self line hline
      refine ⟨GameState.winnerPiece self.result, ?_, r, c, dir, List.getElem?_mem hd, hrun⟩
      rcases winnerPiece_cases hres with ⟨h1, h2⟩ | ⟨h1, h2⟩
      · exact Or.inl ⟨h1, h2⟩
      · exact Or.inr ⟨h1, h2⟩
    · rintro ⟨piece, hp, r, c, dir, hdir, hrun⟩
      rw [← winnerPiece_eq hp] at hrun
      have hres : self.result = GAME_BLACK_WIN ∨ self.result = GAME_WHITE_WIN := by
        rcases hp with ⟨h1, -⟩ | ⟨h1, -⟩
        · exact Or.inl h1
        · exact Or.inr h1
      exact getWinningLine_of_run self r c dir hres hdir hrun
  · intro h
    unfold GameState.getWinningLine
    have hres : self.result ≠ GAME_BLACK_WIN ∧ self.result ≠ GAME_WHITE_WIN := by
      rcases h with h | h <;> rw [h] <;> decide
    rw [if_pos hres]

/-- Witness for C3: the position `twoRuns`. -/
theorem getWinningLine_is_run_witness :
    twoRuns.getWinningLine = some [100, 101, 102, 103, 104] ∧
    ([100, 101, 102, 103, 104] : List Int).length = 5 ∧
    ∃ (r c dr dc : Int) (piece : Nat),
      (dr, dc) ∈ [((0 : Int), (1 : Int)), (1, 0), (1, 1), (1, -1)] ∧
      ((twoRuns.result = GAME_BLACK_WIN ∧ piece = CELL_BLACK) ∨
        (twoRuns.result = GAME_WHITE_WIN ∧ piece = CELL_WHITE)) ∧
      ∀ k : Nat, k < 5 →
        ([100, 101, 102, 103, 104] : List Int)[k]? =
          some ((r + k * dr) * 15 + (c + k * dc)) ∧
        0 ≤ r + k * dr ∧ r + k * dr < 15 ∧ 0 ≤ c + k * dc ∧ c + k * dc < 15 ∧
        twoRuns.board.get ((r + k * dr) * 15 + (c + k * dc)) = some piece :=
  ⟨by decide, getWinningLine_is_run twoRuns [100, 101, 102, 103, 104] (by decide)⟩

/-- Witness for C4: in `twoRuns` the row from `(6, 10)` is returned, ahead of
the column from the same cell. -/
theorem getWinningLine_is_first_witness :
    twoRuns.getWinningLine = some [100, 101, 102, 103, 104] ∧
    ∀ (r' c' d' : Nat) (dir' : Int × Int),
      [((0 : Int), (1 : Int)), (1, 0), (1, 1), (1, -1)][d']? = some dir' →
      ScanBefore r' c' d' 6 10 0 →
      ¬ FiveRun twoRuns.board CELL_BLACK r' c' dir' :=
  ⟨by decide,
    getWinningLine_is_first twoRuns [100, 101, 102, 103, 104] (by decide)
      6 10 0 (0, 1) (by decide) (by decide) (by decide) CELL_BLACK
      (Or.inl ⟨by decide, rfl⟩)⟩

/-! ## Invariants of play -/

/-- The fields `updateResult` never assigns. -/
theorem updateResult_frame (s : GameState) (x : JSVal) :
    (s.updateResult x).board = s.board ∧
    (s.updateResult x).moveHistory = s.moveHistory ∧
    (s.updateResult x).moveCount = s.moveCount ∧
    (s.updateResult x).currentSide = s.currentSide := by
  induction x with
  | str t =>
    unfold GameState.updateResult
    split_ifs <;> exact ⟨rfl, rfl, rfl, rfl⟩
  | obj r ih =>
    unfold GameState.updateResult
    split_ifs
    · exact ih
    · exact ⟨rfl, rfl, rfl, rfl⟩
  | undefined => exact ⟨rfl, rfl, rfl, rfl⟩

/-- Filling an empty cell adds one to the number of non-empty cells. -/
theorem countP_set_empty (v : Nat) (hv : v ≠ CELL_EMPTY) :
    ∀ (l : List Nat) (k : Nat), l[k]? = some CELL_EMPTY →
      (l.set k v).countP (fun x => x ≠ CELL_EMPTY) =
        l.countP (fun x => x ≠ CELL_EMPTY) + 1 := by
  intro l
  induction l with
  | nil => intro k h; simp at h
  | cons a t ih =>
    intro k h
    cases k with
    | zero =>
      simp only [List.getElem?_cons_zero, Option.some.injEq] at h
      subst h
      simp [List.set, List.countP_cons, hv]
    | succ k =>
      simp only [List.getElem?_cons_succ] at h
      simp only [List.set, List.countP_cons, ih k h]
      omega

theorem Board.occupied_set (b : Board) (i : Int) (v : Nat)
    (h0 : 0 ≤ i) (h1 : i < 225) (hcell : b.get i = some CELL_EMPTY)
    (hv : v % 256 ≠ CELL_EMPTY) :
    (b.set i v).occupied = b.occupied + 1 := by
  unfold Board.get at hcell
  rw [if_pos h0] at hcell
  unfold Board.occupied Board.set
  rw [if_pos ⟨h0, h1⟩]
  exact countP_set_empty _ hv _ _ hcell

/-- The piece `recordMove` writes is never the empty cell. -/
theorem piece_ne_empty (side : Int) :
    (if side = SIDE_BLACK then CELL_BLACK else CELL_WHITE) % 256 ≠ CELL_EMPTY := by
  split_ifs <;> decide

theorem consistent_fresh : Consistent GameState.fresh where
  count := by decide
  length := rfl
  mem := by
    intro i
    constructor
    · intro h; cases h
    · rintro ⟨h0, h1, h2⟩
      exfalso
      apply h2
      have hlt : i.toNat < 225 := by omega
      show (if 0 ≤ i then (List.replicate 225 0)[i.toNat]? else none) = some CELL_EMPTY
      rw [if_pos h0, List.getElem?_replicate, if_pos hlt]
      rfl
  nodup := List.nodup_nil
  side := Or.inl ⟨rfl, rfl⟩

theorem consistent_recordMove (s : GameState) (i : Int) (hs : Consistent s)
    (hlegal : (s.isLegalMove i).1 = true) : Consistent (s.recordMove i) := by
  obtain ⟨h0, h1, hcell, -⟩ := (legal_iff s i).mp hlegal
  have hnot : i ∉ s.moveHistory := fun hin => ((hs.mem i).mp hin).2.2 hcell
  refine ⟨?_, ?_, ?_, ?_, ?_⟩
  · show ((s.board.set i _).occupied : Int) = s.moveCount + 1
    rw [Board.occupied_set s.board i _ h0 h1 hcell (piece_ne_empty _), ← hs.count]
    push_cast; rfl
  · show ((s.moveHistory ++ [i]).length : Int) = s.moveCount + 1
    rw [List.length_append, ← hs.length]
    push_cast; rfl
  · intro j
    show j ∈ s.moveHistory ++ [i] ↔ (0 ≤ j ∧ j < 225 ∧ (s.board.set i _).get j ≠ some CELL_EMPTY)
    rw [List.mem_append, List.mem_singleton]
    by_cases hji : j = i
    · subst hji
      rw [Board.get_set_self _ _ _ h0 h1]
      constructor
      · intro _
        refine ⟨h0, h1, ?_⟩
        intro hc
        exact piece_ne_empty _ (Option.some.inj hc)
      · intro _; exact Or.inr rfl
    · rw [Board.get_set_other _ _ _ _ hji, hs.mem j]
      constructor
      · rintro (h | h)
        · exact h
        · exact absurd h hji
      · intro h; exact Or.inl h
  · show (s.moveHistory ++ [i]).Nodup
    rw [List.nodup_append]
    refine ⟨hs.nodup, List.nodup_singleton i, ?_⟩
    intro a ha hb
    rw [List.mem_singleton] at hb
    exact hnot (hb ▸ ha)
  · show ((1 - s.currentSide = SIDE_BLACK ∧ (s.moveCount + 1) % 2 = 0) ∨
      (1 - s.currentSide = SIDE_WHITE ∧ (s.moveCount + 1) % 2 = 1))
    rcases hs.side with ⟨e1, e2⟩ | ⟨e1, e2⟩
    · right
      rw [e1]
      exact ⟨rfl, by omega⟩
    · left
      rw [e1]
      exact ⟨rfl, by omega⟩

theorem consistent_updateResult (s : GameState) (x : JSVal) (hs : Consistent s) :
    Consistent (s.updateResult x) := by
  obtain ⟨e1, e2, e3, e4⟩ := updateResult_frame s x
  refine ⟨?_, ?_, ?_, ?_, ?_⟩
  · rw [e1, e3]; exact hs.count
  · rw [e2, e3]; exact hs.length
  · intro i; rw [e1, e2]; exact hs.mem i
  · rw [e2]; exact hs.nodup
  · rw [e3, e4]; exact hs.side

theorem consistent_of_reachable (s : GameState) (h : Reachable s) : Consistent s := by
  induction h with
  | reset s => exact consistent_fresh
  | recordMove s i _ hlegal ih => exact consistent_recordMove s i ih hlegal
  | updateResult s x _ ih => exact consistent_updateResult s x ih

theorem reachable_afterCentre : Reachable afterCentre :=
  Reachable.recordMove _ 112 (Reachable.reset GameState.fresh) (by decide)

/-! ## Invariants of play: claims -/

/-- C6: in every session reached from a fresh reset by legal `recordMove` calls
interleaved with `updateResult` calls, exactly `moveCount` board cells are
non-empty, a cell is non-empty if and only if its index occurs in
`moveHistory` (whose entries are all cell indices), and `moveHistory` holds no
index twice. -/
theorem reachable_board_matches_history (s : GameState) (h : Reachable s) :
    (s.board.occupied : Int) = s.moveCount ∧
    (∀ i : Int, 0 ≤ i → i < 225 →
      (s.board.get i ≠ some CELL_EMPTY ↔ i ∈ s.moveHistory)) ∧
    (∀ i ∈ s.moveHistory, 0 ≤ i ∧ i < 225) ∧
    s.moveHistory.Nodup := by
  have hs := consistent_of_reachable s h
  refine ⟨hs.count, ?_, ?_, hs.nodup⟩
  · intro i h0 h1
    rw [hs.mem i]
    constructor
    · intro hc; exact ⟨h0, h1, hc⟩
    · intro hc; exact hc.2.2
  · intro i hi
    have := (hs.mem i).mp hi
    exact ⟨this.1, this.2.1⟩

/-- Witness for C6: the session after the opening move at the centre. -/
theorem reachable_board_matches_history_witness :
    Reachable afterCentre ∧
    (afterCentre.board.occupied : Int) = afterCentre.moveCount ∧
    (∀ i : Int, 0 ≤ i → i < 225 →
      (afterCentre.board.get i ≠ some CELL_EMPTY ↔ i ∈ afterCentre.moveHistory)) ∧
    (∀ i ∈ afterCentre.moveHistory, 0 ≤ i ∧ i < 225) ∧
    afterCentre.moveHistory.Nodup :=
  ⟨reachable_afterCentre, reachable_board_matches_history afterCentre reachable_afterCentre⟩

/-- C7: in every session reached from a fresh reset by legal `recordMove` calls
(also when `updateResult` calls are interleaved), `moveCount` is the length of
`moveHistory` and `currentSide` is `SIDE_BLACK` exactly when `moveCount` is
even.  The side to move starts as `SIDE_BLACK` after a reset, is always one of
the two sides, and every `recordMove` hands the move to the other side. -/
theorem reachable_turn_parity (s : GameState) (h : Reachable s) :
    s.moveCount = (s.moveHistory.length : Int) ∧
    (s.currentSide = SIDE_BLACK ↔ s.moveCount % 2 = 0) ∧
    (∀ t : GameState, t.reset.currentSide = SIDE_BLACK) ∧
    (s.currentSide = SIDE_BLACK ∨ s.currentSide = SIDE_WHITE) ∧
    (∀ i : Int,
      (s.currentSide = SIDE_BLACK → (s.recordMove i).currentSide = SIDE_WHITE) ∧
      (s.currentSide = SIDE_WHITE → (s.recordMove i).currentSide = SIDE_BLACK)) := by
  have hs := consistent_of_reachable s h
  refine ⟨hs.length.symm, ?_, fun _ => rfl, ?_, ?_⟩
  · rcases hs.side with ⟨e1, e2⟩ | ⟨e1, e2⟩
    · exact ⟨fun _ => e2, fun _ => e1⟩
    · constructor
      · intro hb
        rw [hb] at e1
        exact absurd e1 (by decide)
      · intro he
        omega
  · rcases hs.side with ⟨e1, -⟩ | ⟨e1, -⟩
    · exact Or.inl e1
    · exact Or.inr e1
  · intro i
    constructor
    · intro e
      show 1 - s.currentSide = SIDE_WHITE
      rw [e]; rfl
    · intro e
      show 1 - s.currentSide = SIDE_BLACK
      rw [e]; rfl

/-- Witness for C7: the session after the opening move at the centre. -/
theorem reachable_turn_parity_witness :
    Reachable afterCentre ∧
    afterCentre.moveCount = (afterCentre.moveHistory.length : Int) ∧
    (afterCentre.currentSide = SIDE_BLACK ↔ afterCentre.moveCount % 2 = 0) ∧
    (∀ t : GameState, t.reset.currentSide = SIDE_BLACK) ∧
    (afterCentre.currentSide = SIDE_BLACK ∨ afterCentre.currentSide = SIDE_WHITE) ∧
    (∀ i : Int,
      (afterCentre.currentSide = SIDE_BLACK →
        (afterCentre.recordMove i).currentSide = SIDE_WHITE) ∧
      (afterCentre.currentSide = SIDE_WHITE →
        (afterCentre.recordMove i).currentSide = SIDE_BLACK)) :=
  ⟨reachable_afterCentre, reachable_turn_parity afterCentre reachable_afterCentre⟩

/-- C8: in every session reached from a fresh reset by legal `recordMove` calls
and arbitrary `updateResult` calls, `isLegalMove(i)` is false for every index
already in `moveHistory`, for every index outside `[0, 225)`, and for every
index once `result` is not `GAME_ONGOING`. -/
theorem reachable_isLegalMove_false (s : GameState) (h : Reachable s) (i : Int)
    (hi : i ∈ s.moveHistory ∨ i < 0 ∨ 225 ≤ i ∨ s.result ≠ GAME_ONGOING) :
    (s.isLegalMove i).1 = false := by
  have hs := consistent_of_reachable s h
  rw [← Bool.not_eq_true]
  intro hlegal
  obtain ⟨h0, h1, hcell, hres⟩ := (legal_iff s i).mp hlegal
  rcases hi with hin | hlt | hge | hne
  · exact ((hs.mem i).mp hin).2.2 hcell
  · omega
  · omega
  · exact hne hres

/-- Witness for C8: after the opening move at the centre, the centre is no
longer a legal move. -/
theorem reachable_isLegalMove_false_witness :
    Reachable afterCentre ∧
    ((112 : Int) ∈ afterCentre.moveHistory ∨ (112 : Int) < 0 ∨ (225 : Int) ≤ 112 ∨
      afterCentre.result ≠ GAME_ONGOING) ∧
    (afterCentre.isLegalMove 112).1 = false :=
  ⟨reachable_afterCentre, Or.inl (by decide),
    reachable_isLegalMove_false afterCentre reachable_afterCentre 112 (Or.inl (by decide))⟩

/-! ## Terminal sessions -/

/-- C9, as stated, fails: in the terminal session `blackWon` the call
`recordMove(0)` writes cell 0 and appends to the history. -/
theorem terminal_recordMove_mutates :
    blackWon.result ≠ GAME_ONGOING ∧
    (blackWon.recordMove 0).board.get 0 ≠ blackWon.board.get 0 ∧
    (blackWon.recordMove 0).moveHistory ≠ blackWon.moveHistory := by
  decide

/-- C9, amended: in every session whose `result` is not `GAME_ONGOING`,
`updateResult(x)` leaves `board` and `moveHistory` unchanged for every response
`x`, and `isLegalMove(i)` is false for every index `i`, so no `recordMove` call
that meets its precondition can follow. -/
theorem terminal_absorbing_for_legal_play (s : GameState)
    (h : s.result ≠ GAME_ONGOING) :
    (∀ x : JSVal, (s.updateResult x).board = s.board ∧
      (s.updateResult x).moveHistory = s.moveHistory) ∧
    (∀ i : Int, (s.isLegalMove i).1 = false) := by
  constructor
  · intro x
    exact ⟨(updateResult_frame s x).1, (updateResult_frame s x).2.1⟩
  · intro i
    rw [← Bool.not_eq_true]
    intro hlegal
    exact h ((legal_iff s i).mp hlegal).2.2.2

/-- Witness for C9 as amended: the terminal session `blackWon`. -/
theorem terminal_absorbing_for_legal_play_witness :
    blackWon.result ≠ GAME_ONGOING ∧
    (∀ x : JSVal, (blackWon.updateResult x).board = blackWon.board ∧
      (blackWon.updateResult x).moveHistory = blackWon.moveHistory) ∧
    (∀ i : Int, (blackWon.isLegalMove i).1 = false) :=
  ⟨by decide, terminal_absorbing_for_legal_play blackWon (by decide)⟩

/-- C10: `updateResult` is idempotent.  For every session and every response
`x` (in particular a status string containing `win black`, `win white` or
`draw`, or a response object carrying one in its `result` field), applying
`updateResult(x)` twice leaves exactly the session that applying it once
leaves. -/
theorem updateResult_idempotent (s : GameState) (x : JSVal) :
    (s.updateResult x).updateResult x = s.updateResult x := by
  induction x with
  | str t =>
    simp only [GameState.updateResult]
    split_ifs <;> simp only [GameState.updateResult, if_pos, if_neg, *]
  | obj r ih =>
    simp only [GameState.updateResult]
    split_ifs
    · simp only [GameState.updateResult, if_pos, *]
    · rfl
  | undefined => rfl

/-! ## `updateResult`: outcomes -/

/-- C11: for a status string `t`, `updateResult(t)` sets `result` to
`GAME_BLACK_WIN` if `t` contains `win black`, otherwise to `GAME_WHITE_WIN` if
`t` contains `win white`, otherwise to `GAME_DRAW` if `t` contains `draw`, and
sets `isGameOver` in each of these cases; a `t` with none of the three patterns
leaves the whole session unchanged.  In all cases `board`, `moveHistory`,
`moveCount` and `currentSide` are unchanged.  After `recordMove(112)` on a
fresh session, `updateResult('ongoing')` leaves `result` at `GAME_ONGOING`
with `currentSide` equal to `SIDE_WHITE`. -/
theorem updateResult_string (s : GameState) (t : String) :
    (includes t "win black" = true →
      (s.updateResult (.str t)).result = GAME_BLACK_WIN ∧
      (s.updateResult (.str t)).isGameOver = true) ∧
    (includes t "win black" = false → includes t "win white" = true →
      (s.updateResult (.str t)).result = GAME_WHITE_WIN ∧
      (s.updateResult (.str t)).isGameOver = true) ∧
    (includes t "win black" = false → includes t "win white" = false →
      includes t "draw" = true →
      (s.updateResult (.str t)).result = GAME_DRAW ∧
      (s.updateResult (.str t)).isGameOver = true) ∧
    (includes t "win black" = false → includes t "win white" = false →
      includes t "draw" = false → s.updateResult (.str t) = s) ∧
    ((s.updateResult (.str t)).board = s.board ∧
      (s.updateResult (.str t)).moveHistory = s.moveHistory ∧
      (s.updateResult (.str t)).moveCount = s.moveCount ∧
      (s.updateResult (.str t)).currentSide = s.currentSide) ∧
    (((GameState.fresh.recordMove 112).updateResult (.str "ongoing")).result = GAME_ONGOING ∧
      ((GameState.fresh.recordMove 112).updateResult (.str "ongoing")).currentSide =
        SIDE_WHITE) := by
  refine ⟨?_, ?_, ?_, ?_, updateResult_frame s (.str t), by decide, by decide⟩
  · intro h1
    simp only [GameState.updateResult, h1, if_true, and_self]
  · intro h1 h2
    simp [GameState.updateResult, h1, h2]
  · intro h1 h2 h3
    simp [GameState.updateResult, h1, h2, h3]
  · intro h1 h2 h3
    simp [GameState.updateResult, h1, h2, h3]

/-- One `updateResult` call either leaves the session as it was or leaves a
terminal one with `isGameOver` set. -/
theorem updateResult_cases (s : GameState) (x : JSVal) :
    s.updateResult x = s ∨
      ((s.updateResult x).isGameOver = true ∧
        (s.updateResult x).result ≠ GAME_ONGOING) := by
  induction x with
  | str t =>
    unfold GameState.updateResult
    split_ifs
    · exact Or.inr ⟨rfl, show GAME_BLACK_WIN ≠ GAME_ONGOING by decide⟩
    · exact Or.inr ⟨rfl, show GAME_WHITE_WIN ≠ GAME_ONGOING by decide⟩
    · exact Or.inr ⟨rfl, show GAME_DRAW ≠ GAME_ONGOING by decide⟩
    · exact Or.inl rfl
  | obj r ih =>
    unfold GameState.updateResult
    split_ifs
    · exact ih
    · exact Or.inl rfl
  | undefined => exact Or.inl rfl

theorem call_result_ne_ongoing (s : GameState) (c : Call)
    (h : s.result ≠ GAME_ONGOING) : (s.call c).result ≠ GAME_ONGOING := by
  cases c with
  | recordMove index => exact h
  | updateResult x =>
    show (s.updateResult x).result ≠ GAME_ONGOING
    rcases updateResult_cases s x with e | ⟨-, e⟩
    · rw [e]; exact h
    · exact e

/-- C12: once `result` is not `GAME_ONGOING` it stays so under every finite
sequence of `recordMove` and `updateResult` calls with arbitrary arguments; in
particular `updateResult` with an `ongoing` or unrecognized status never
returns the session to `GAME_ONGOING`. -/
theorem run_stays_terminal (s : GameState) (calls : List Call)
    (h : s.result ≠ GAME_ONGOING) : (s.run calls).result ≠ GAME_ONGOING := by
  unfold GameState.run
  induction calls generalizing s with
  | nil => exact h
  | cons c rest ih => exact ih (s.call c) (call_result_ne_ongoing s c h)

/-- Witness for C12: after black has won, a move and an `ongoing` status. -/
theorem run_stays_terminal_witness :
    blackWon.result ≠ GAME_ONGOING ∧
    (blackWon.run [.recordMove 3, .updateResult (.str "ongoing"),
      .updateResult (.str "??")]).result ≠ GAME_ONGOING :=
  ⟨by decide, run_stays_terminal blackWon _ (by decide)⟩

/-! ## Whose turn it is -/

/-- C13: `isHumanTurn()` and `isAITurn()` are never both true. -/
theorem turn_queries_exclusive (s : GameState) :
    ¬ (s.isHumanTurn = true ∧ s.isAITurn = true) := by
  unfold GameState.isHumanTurn GameState.isAITurn
  simp only [Bool.and_eq_true, decide_eq_true_eq]
  rintro ⟨⟨⟨h1, -⟩, -⟩, ⟨⟨h2, -⟩, -⟩⟩
  exact h2 h1

/-- C14, as stated, fails: in the fresh session with `isThinking` set, which is
not terminal, neither `isHumanTurn()` nor `isAITurn()` is true. -/
theorem thinking_no_turn :
    thinking.result = GAME_ONGOING ∧ thinking.isGameOver = false ∧
    thinking.isHumanTurn = false ∧ thinking.isAITurn = false := by
  decide

/-- C14, amended: in every session with `isGameOver` false and `isThinking`
false, at least one of `isHumanTurn()` and `isAITurn()` is true; and in every
session with `isThinking` true, terminal or not, both queries are false. -/
theorem turn_queries_exhaustive (s : GameState) :
    (s.isGameOver = false → s.isThinking = false →
      (s.isHumanTurn = true ∨ s.isAITurn = true)) ∧
    (s.isThinking = true → s.isHumanTurn = false ∧ s.isAITurn = false) := by
  unfold GameState.isHumanTurn GameState.isAITurn
  constructor
  · intro hover hthink
    rw [hover, hthink]
    by_cases h : s.currentSide = s.humanSide
    · left; simp [h]
    · right; simp [h]
  · intro hthink
    rw [hthink]
    simp

/-- Witness for C14 as amended: the fresh session, and the fresh session with
`isThinking` set. -/
theorem turn_queries_exhaustive_witness :
    (GameState.fresh.isGameOver = false ∧ GameState.fresh.isThinking = false ∧
      (GameState.fresh.isHumanTurn = true ∨ GameState.fresh.isAITurn = true)) ∧
    (thinking.isThinking = true ∧ thinking.isHumanTurn = false ∧
      thinking.isAITurn = false) :=
  ⟨⟨rfl, rfl, (turn_queries_exhaustive GameState.fresh).1 rfl rfl⟩,
    ⟨rfl, (turn_queries_exhaustive thinking).2 rfl⟩⟩

/-! ## The terminal flag -/

theorem call_flag_agrees (s : GameState) (c : Call)
    (h : s.isGameOver = true ↔ s.result ≠ GAME_ONGOING) :
    (s.call c).isGameOver = true ↔ (s.call c).result ≠ GAME_ONGOING := by
  cases c with
  | recordMove index => exact h
  | updateResult x =>
    show (s.updateResult x).isGameOver = true ↔ (s.updateResult x).result ≠ GAME_ONGOING
    rcases updateResult_cases s x with e | ⟨e1, e2⟩
    · rw [e]; exact h
    · exact ⟨fun _ => e2, fun _ => e1⟩

theorem run_flag_agrees (s : GameState) (calls : List Call)
    (h : s.isGameOver = true ↔ s.result ≠ GAME_ONGOING) :
    (s.run calls).isGameOver = true ↔ (s.run calls).result ≠ GAME_ONGOING := by
  unfold GameState.run
  induction calls generalizing s with
  | nil => exact h
  | cons c rest ih => exact ih (s.call c) (call_flag_agrees s c h)

/-- C20: in every session reached from a fresh reset by any sequence of
`recordMove` and `updateResult` calls with any arguments, `isGameOver` is true
if and only if `result` is not `GAME_ONGOING`. -/
theorem reachable_flag_agrees (t : GameState) (calls : List Call) :
    (t.reset.run calls).isGameOver = true ↔ (t.reset.run calls).result ≠ GAME_ONGOING :=
  run_flag_agrees t.reset calls
    (show GameState.fresh.isGameOver = true ↔ GameState.fresh.result ≠ GAME_ONGOING by decide)

/-! ## A single row of five -/

/-- C19: if `result` is `GAME_BLACK_WIN` and the black stones on the board are
exactly the five cells `s, s+1, s+2, s+3, s+4` with `s = 15*r + c`, for a row
`0 ≤ r < 15` and a start column `0 ≤ c ≤ 10` (every other cell holds something
else), then `getWinningLine()` returns exactly `[s, s+1, s+2, s+3, s+4]`. -/
theorem getWinningLine_single_row (self : GameState) (r c : Int)
    (hr0 : 0 ≤ r) (hr1 : r < 15) (hc0 : 0 ≤ c) (hc1 : c ≤ 10)
    (hres : self.result = GAME_BLACK_WIN)
    (hblack : ∀ i : Int, 0 ≤ i → i < 225 →
      (self.board.get i = some CELL_BLACK ↔ 15 * r + c ≤ i ∧ i ≤ 15 * r + c + 4)) :
    self.getWinningLine =
      some [15 * r + c, 15 * r + c + 1, 15 * r + c + 2, 15 * r + c + 3, 15 * r + c + 4] := by
  have hw : GameState.winnerPiece self.result = CELL_BLACK :=
    winnerPiece_eq (Or.inl ⟨hres, rfl⟩)
  have hrun : FiveRun self.board (GameState.winnerPiece self.result) r c (0, 1) := by
    intro k hk
    rw [hw]
    have hk' : (k : Int) < 5 := by exact_mod_cast hk
    have hk0 : (0 : Int) ≤ k := Int.ofNat_nonneg k
    refine ⟨by simp only; omega, by simp only; omega, by simp only; omega,
      by simp only; omega, ?_⟩
    apply (hblack _ (by simp only; omega) (by simp only; omega)).mpr
    simp only
    constructor <;> omega
  have hne := getWinningLine_of_run self r c (0, 1) (Or.inl hres)
    (by simp [GameState.directions]) hrun
  obtain ⟨found, hfound⟩ := Option.ne_none_iff_exists'.mp hne
  obtain ⟨-, r0, c0, d0, dir0, hr0', hc0', hd0, hrun0, hline0, -⟩ :=
    getWinningLine_found self found hfound
  rw [hw] at hrun0
  obtain ⟨a0, a1, a2, a3, a4⟩ := hrun0 0 (by decide)
  obtain ⟨b0, b1, b2, b3, b4⟩ := hrun0 1 (by decide)
  obtain ⟨e0, e1, e2, e3, e4⟩ := hrun0 4 (by decide)
  have ha := (hblack _ (by omega) (by omega)).mp a4
  have hb := (hblack _ (by omega) (by omega)).mp b4
  have he := (hblack _ (by omega) (by omega)).mp e4
  rw [hfound, hline0]
  rcases directions_getElem hd0 with ⟨-, rfl⟩ | ⟨-, rfl⟩ | ⟨-, rfl⟩ | ⟨-, rfl⟩
  · simp only [Nat.cast_zero, Nat.cast_ofNat, zero_mul, mul_zero, add_zero, one_mul] at ha he
    have hs : (r0 : Int) * 15 + c0 = 15 * r + c := by omega
    have h5 : List.range 5 = [0, 1, 2, 3, 4] := by decide
    simp only [runIndices, h5, List.map, Nat.cast_zero, Nat.cast_one, Nat.cast_ofNat,
      zero_mul, mul_zero, add_zero, one_mul, mul_one, ← add_assoc, hs]
  · simp only [Nat.cast_zero, Nat.cast_one, mul_zero, mul_one, add_zero] at ha hb
    omega
  · simp only [Nat.cast_zero, Nat.cast_one, mul_zero, mul_one, add_zero] at ha hb
    omega
  · simp only [Nat.cast_zero, Nat.cast_one, mul_zero, mul_one, add_zero] at ha hb
    omega

/-- Witness for C19: the row `100 .. 104`. -/
theorem getWinningLine_single_row_witness :
    ((0 : Int) ≤ 6 ∧ (6 : Int) < 15 ∧ (0 : Int) ≤ 10 ∧ (10 : Int) ≤ 10) ∧
    rowOfFive.result = GAME_BLACK_WIN ∧
    (∀ i : Int, 0 ≤ i → i < 225 →
      (rowOfFive.board.get i = some CELL_BLACK ↔ 15 * 6 + 10 ≤ i ∧ i ≤ 15 * 6 + 10 + 4)) ∧
    rowOfFive.getWinningLine = some [100, 101, 102, 103, 104] :=
  have hblack : ∀ i : Int, 0 ≤ i → i < 225 →
      (rowOfFive.board.get i = some CELL_BLACK ↔ 15 * 6 + 10 ≤ i ∧ i ≤ 15 * 6 + 10 + 4) := by
    have key : ∀ n : Nat, n < 225 →
        (rowOfFive.board.get (n : Int) = some CELL_BLACK ↔
          (15 * 6 + 10 : Int) ≤ n ∧ (n : Int) ≤ 15 * 6 + 10 + 4) := by
      decide
    intro i h0 h1
    have hi : ((i.toNat : Nat) : Int) = i := Int.toNat_of_nonneg h0
    rw [← hi]
    exact key i.toNat (by omega)
  ⟨⟨by decide, by decide, by decide, by decide⟩, rfl, hblack,
    getWinningLine_single_row rowOfFive 6 10 (by decide) (by decide) (by decide)
      (by decide) rfl hblack⟩

/-! ## The engine channel -/

theorem settle_frame (e : EngineInterface) (p : Nat) (st : PromiseState) :
    (e.settle p st).worker = e.worker ∧ (e.settle p st).ready = e.ready ∧
    (e.settle p st).pendingResolve = e.pendingResolve := by
  unfold EngineInterface.settle
  split <;> exact ⟨rfl, rfl, rfl⟩

theorem settle_get (e : EngineInterface) (p : Nat) (st : PromiseState)
    (h : e.promises[p]? = some .pending) : (e.settle p st).promises[p]? = some st := by
  have hlt : p < e.promises.length := (List.getElem?_eq_some_iff.mp h).1
  unfold EngineInterface.settle
  rw [h]
  simp [hlt]

theorem settle_get_other (e : EngineInterface) (p q : Nat) (st : PromiseState)
    (h : p ≠ q) : (e.settle p st).promises[q]? = e.promises[q]? := by
  unfold EngineInterface.settle
  split
  · exact List.getElem?_set_ne h
  · rfl

theorem settlePending_spec (e : EngineInterface) (p : Nat) (st : PromiseState)
    (hp : e.pendingResolve = some p) :
    (e.settlePending st).pendingResolve = none ∧
    (e.settlePending st).ready = e.ready ∧
    (e.settlePending st).worker = e.worker ∧
    (e.promises[p]? = some .pending → (e.settlePending st).promises[p]? = some st) := by
  unfold EngineInterface.settlePending
  rw [hp]
  obtain ⟨h1, h2, -⟩ := settle_frame e p st
  exact ⟨rfl, h2, h1, fun h => settle_get e p st h⟩

theorem settlePending_frame (e : EngineInterface) (st : PromiseState) :
    (e.settlePending st).pendingResolve = none ∧
    (e.settlePending st).ready = e.ready ∧
    (e.settlePending st).worker = e.worker := by
  cases hp : e.pendingResolve with
  | none =>
    unfold EngineInterface.settlePending
    rw [hp]
    exact ⟨hp, rfl, rfl⟩
  | some p =>
    obtain ⟨h1, h2, h3, -⟩ := settlePending_spec e p st hp
    exact ⟨h1, h2, h3⟩

/-- A request on a channel that is not ready is rejected on the spot. -/
theorem request_rejects (self : EngineInterface) (msg : Outbound)
    (h : self.ready = false) :
    Rejects self (self.request msg) (.error "Engine not ready") := by
  unfold Rejects EngineInterface.request
  simp only [h, Bool.not_false, if_true]
  have hnew : (self.promises ++ [PromiseState.pending])[self.promises.length]? =
      some .pending := by
    rw [List.getElem?_append_right (Nat.le_refl _)]; simp
  refine ⟨?_, ?_, ?_, ?_⟩
  · exact List.getElem?_eq_none (Nat.le_refl _)
  · exact settle_get _ _ _ hnew
  · exact (settle_frame _ _ _).1
  · exact (settle_frame _ _ _).2.2

/-- A request on a ready channel with a worker is accepted, whatever is
pending, and settles no promise. -/
theorem request_accepts (self : EngineInterface) (msg : Outbound) (sent : List Outbound)
    (h : self.ready = true) (hw : self.worker = some sent) :
    Accepts self (self.request msg) msg ∧
    ∀ q st, self.promises[q]? = some st →
      (self.request msg).1 ≠ q ∧ (self.request msg).2.promises[q]? = some st := by
  have hreq : self.request msg = (self.promises.length,
      { self with
        promises := self.promises ++ [.pending]
        pendingResolve := some self.promises.length
        worker := some (sent ++ [msg]) }) := by
    unfold EngineInterface.request
    simp only [h, hw, Bool.not_true, Bool.false_eq_true, if_false]
  rw [hreq]
  unfold Accepts
  refine ⟨⟨?_, ?_, rfl, sent, hw, rfl⟩, ?_⟩
  · exact List.getElem?_eq_none (Nat.le_refl _)
  · show (self.promises ++ [PromiseState.pending])[self.promises.length]? = some .pending
    rw [List.getElem?_append_right (Nat.le_refl _)]; simp
  · intro q st hq
    have hlt : q < self.promises.length := (List.getElem?_eq_some_iff.mp hq).1
    refine ⟨?_, ?_⟩
    · show self.promises.length ≠ q
      omega
    · show (self.promises ++ [PromiseState.pending])[q]? = some st
      rw [List.getElem?_append_left hlt]
      exact hq

/-- The exact values `parseInt` reports all lie in the range where doubles
are exact. -/
theorem toNumber_int_bound (negative : Bool) (mathInt : Option Nat) (n : Int)
    (h : toNumber negative mathInt = .int n) :
    -9007199254740992 < n ∧ n < 9007199254740992 := by
  unfold toNumber at h
  cases mathInt with
  | none => exact JSNumber.noConfusion h
  | some m =>
    simp only at h
    split_ifs at h with h1 h2 h3
    · have e := JSNumber.int.inj h
      omega
    · have e := JSNumber.int.inj h
      omega

theorem parseInt_int_bound (string : Option (List Char)) (n : Int)
    (h : parseInt string = .int n) :
    -9007199254740992 < n ∧ n < 9007199254740992 := by
  unfold parseInt at h
  cases string with
  | none => exact JSNumber.noConfusion h
  | some cs =>
    simp only at h
    split at h <;> exact toNumber_int_bound _ _ n h

/-- A digit string above `2^53`, which the double rounds: only its magnitude
class and sign are reported. -/
theorem parseInt_above_exact_range :
    parseInt (some "9007199254740993".data) = .huge false ∧
    parseInt (some "-9007199254740993".data) = .huge true ∧
    parseInt (some "9007199254740991".data) = .int 9007199254740991 ∧
    parseInt (some "300".data) = .int 300 ∧ parseInt (some "-0".data) = .negZero ∧
    parseInt (some "x".data) = .nan ∧ parseInt none = .nan := by
  decide

/-! ## The engine channel: claims -/

/-- C15, as stated, fails: on the ready channel `busyEngine`, whose request
`update(112)` is pending, the second call `go(100000)` is not rejected; its
promise is pending, a second message has been posted, and `pendingResolve`
has been replaced by the second call. -/
theorem busy_second_call_accepted :
    busyEngine.ready = true ∧ busyEngine.pendingResolve = some 0 ∧
    (busyEngine.go (some 100000)).2.promises[(busyEngine.go (some 100000)).1]? =
      some .pending ∧
    (busyEngine.go (some 100000)).2.worker = some [.update 112, .go 100000] ∧
    (busyEngine.go (some 100000)).2.pendingResolve = some 1 ∧
    ∀ reason, ¬ Rejects busyEngine (busyEngine.go (some 100000)) reason := by
  refine ⟨by decide, by decide, by decide, by decide, by decide, ?_⟩
  intro reason h
  have h4 := h.2.2.2
  revert h4
  decide

/-- C15, amended: on a ready channel with a worker and a pending request `q`,
each of `update(index)`, `go(iters)`, `reset()` and `getState()` is accepted:
it returns a new pending promise, which replaces `q` as the pending request,
and posts exactly one more message to the worker; the promise of `q` is left
pending and is not rejected. -/
theorem ready_call_replaces_pending (self : EngineInterface) (sent : List Outbound)
    (q : Nat) (hready : self.ready = true) (hworker : self.worker = some sent)
    (hq : self.pendingResolve = some q) (hqp : self.promises[q]? = some .pending)
    (index : Int) (iters : Option Int) :
    ∀ om ∈ [(self.update index, Outbound.update index),
        (self.go iters, Outbound.go (iters.getD 10000)),
        (self.reset, Outbound.reset), (self.getState, Outbound.state)],
      Accepts self om.1 om.2 ∧ om.1.2.pendingResolve ≠ self.pendingResolve ∧
      om.1.2.promises[q]? = some .pending := by
  have key : ∀ msg : Outbound,
      Accepts self (self.request msg) msg ∧
      (self.request msg).2.pendingResolve ≠ self.pendingResolve ∧
      (self.request msg).2.promises[q]? = some .pending := by
    intro msg
    obtain ⟨hacc, hold⟩ := request_accepts self msg sent hready hworker
    obtain ⟨hne, hkeep⟩ := hold q .pending hqp
    refine ⟨hacc, ?_, hkeep⟩
    rw [hacc.2.2.1, hq]
    intro e
    exact hne (Option.some.inj e)
  intro om hom
  simp only [List.mem_cons, List.mem_singleton, List.not_mem_nil, or_false] at hom
  rcases hom with rfl | rfl | rfl | rfl
  · exact key (.update index)
  · exact key (.go (iters.getD 10000))
  · exact key .reset
  · exact key .state

/-- Witness for C15 as amended: the channel `busyEngine`. -/
theorem ready_call_replaces_pending_witness :
    (busyEngine.ready = true ∧ busyEngine.worker = some [.update 112] ∧
      busyEngine.pendingResolve = some 0 ∧ busyEngine.promises[0]? = some .pending) ∧
    ∀ om ∈ [(busyEngine.update 7, Outbound.update 7),
        (busyEngine.go (some 100000), Outbound.go ((some 100000 : Option Int).getD 10000)),
        (busyEngine.reset, Outbound.reset), (busyEngine.getState, Outbound.state)],
      Accepts busyEngine om.1 om.2 ∧ om.1.2.pendingResolve ≠ busyEngine.pendingResolve ∧
      om.1.2.promises[0]? = some .pending :=
  ⟨⟨by decide, by decide, by decide, by decide⟩,
    ready_call_replaces_pending busyEngine [.update 112] 0 (by decide) (by decide)
      (by decide) (by decide) 7 (some 100000)⟩

/-- C16: on a channel with `ready` false, each of `update(index)`, `go(iters)`,
`reset()` and `getState()` is rejected at once with the error
`Engine not ready`, posts no message to the worker and leaves `pendingResolve`
as it was. -/
theorem not_ready_calls_rejected (self : EngineInterface) (hready : self.ready = false)
    (index : Int) (iters : Option Int) :
    Rejects self (self.update index) (.error "Engine not ready") ∧
    Rejects self (self.go iters) (.error "Engine not ready") ∧
    Rejects self self.reset (.error "Engine not ready") ∧
    Rejects self self.getState (.error "Engine not ready") :=
  ⟨request_rejects self _ hready, request_rejects self _ hready,
    request_rejects self _ hready, request_rejects self _ hready⟩

/-- Witness for C16: the channel as constructed, before `init()`. -/
theorem not_ready_calls_rejected_witness :
    EngineInterface.new.ready = false ∧
    Rejects EngineInterface.new (EngineInterface.new.update 112)
      (.error "Engine not ready") ∧
    Rejects EngineInterface.new (EngineInterface.new.go (some 100000))
      (.error "Engine not ready") ∧
    Rejects EngineInterface.new EngineInterface.new.reset (.error "Engine not ready") ∧
    Rejects EngineInterface.new EngineInterface.new.getState (.error "Engine not ready") :=
  ⟨rfl, not_ready_calls_rejected EngineInterface.new rfl 112 (some 100000)⟩

/-- C17, as stated, fails: with `go(100000)` pending on the ready channel, the
message `bestmove 300` resolves the promise of `go` with `300`; it is not
rejected. -/
theorem bestmove_out_of_range_resolves :
    (readyEngine.go (some 100000)).2.pendingResolve = some (readyEngine.go (some 100000)).1 ∧
    ¬ ((0 : Int) ≤ 300 ∧ (300 : Int) < 225) ∧
    (EngineInterface.handleMessage (fun _ => none) (readyEngine.go (some 100000)).2
      bestmove300).promises[(readyEngine.go (some 100000)).1]? =
        some (.resolved (.move (.int 300))) := by
  decide

/-- C17, amended: when a request `p` is pending, a `bestmove` message with text
`data` resolves the promise of `p` with the number `parseInt` reads from the
second word of `data`, whether or not it lies in `[0, 225)`, and clears
`pendingResolve`; `ready` and the worker are as before.  The range is checked
by the caller: every index `_aiMove` plays lies in `[0, 225)`, and it reports
an invalid move for every integer outside `[0, 225)`, for `NaN` and for every
number of magnitude `2^53` or more. -/
theorem bestmove_resolves_pending
    (parseState : Option String → Option (List (String × StateField)))
    (self : EngineInterface) (p : Nat) (msg : Inbound) (data : String)
    (hp : self.pendingResolve = some p) (hpp : self.promises[p]? = some .pending)
    (htype : msg.type = "bestmove") (hdata : msg.data = some data) :
    (EngineInterface.handleMessage parseState self msg).promises[p]? =
      some (.resolved (.move (parseInt (splitChars ' ' data.data)[1]?))) ∧
    (EngineInterface.handleMessage parseState self msg).pendingResolve = none ∧
    (EngineInterface.handleMessage parseState self msg).ready = self.ready ∧
    (EngineInterface.handleMessage parseState self msg).worker = self.worker ∧
    (∀ (v : JSNumber) (index : Int),
      GomokuApp.aiMoveBranch v = .playMove index → 0 ≤ index ∧ index < 225) ∧
    (∀ n : Int, ¬ (0 ≤ n ∧ n < 225) → GomokuApp.aiMoveBranch (.int n) = .invalidMove) ∧
    GomokuApp.aiMoveBranch .nan = .invalidMove ∧
    (∀ negative : Bool, GomokuApp.aiMoveBranch (.huge negative) = .invalidMove) := by
  have hmsg : EngineInterface.handleMessage parseState self msg =
      self.settlePending (.resolved (.move (parseInt (splitChars ' ' data.data)[1]?))) := by
    unfold EngineInterface.handleMessage
    rw [htype, hdata, hp]
    simp only [String.reduceEq, if_false, if_true]
  rw [hmsg]
  obtain ⟨h1, h2, h3, h4⟩ := settlePending_spec self p
    (.resolved (.move (parseInt (splitChars ' ' data.data)[1]?))) hp
  refine ⟨h4 hpp, h1, h2, h3, ?_, ?_, rfl, fun _ => rfl⟩
  · intro v index hv
    cases v with
    | nan => exact AiMoveBranch.noConfusion hv
    | huge negative => exact AiMoveBranch.noConfusion hv
    | negZero =>
      have e : (0 : Int) = index := AiMoveBranch.playMove.inj hv
      omega
    | int n =>
      unfold GomokuApp.aiMoveBranch at hv
      simp only [ge_iff_le] at hv
      split_ifs at hv with hn
      have e : n = index := AiMoveBranch.playMove.inj hv
      omega
  · intro n hn
    unfold GomokuApp.aiMoveBranch
    simp only [ge_iff_le]
    rw [if_neg hn]

/-- Witness for C17 as amended: `go(100000)` answered with `bestmove 300`. -/
theorem bestmove_resolves_pending_witness :
    ((readyEngine.go (some 100000)).2.pendingResolve = some 0 ∧
      (readyEngine.go (some 100000)).2.promises[0]? = some .pending ∧
      bestmove300.type = "bestmove" ∧ bestmove300.data = some "bestmove 300") ∧
    (EngineInterface.handleMessage (fun _ => none) (readyEngine.go (some 100000)).2
        bestmove300).promises[0]? =
      some (.resolved (.move (parseInt (splitChars ' ' "bestmove 300".data)[1]?))) ∧
    (EngineInterface.handleMessage (fun _ => none) (readyEngine.go (some 100000)).2
        bestmove300).pendingResolve = none ∧
    (EngineInterface.handleMessage (fun _ => none) (readyEngine.go (some 100000)).2
        bestmove300).ready = (readyEngine.go (some 100000)).2.ready ∧
    (EngineInterface.handleMessage (fun _ => none) (readyEngine.go (some 100000)).2
        bestmove300).worker = (readyEngine.go (some 100000)).2.worker ∧
    (∀ (v : JSNumber) (index : Int),
      GomokuApp.aiMoveBranch v = .playMove index → 0 ≤ index ∧ index < 225) ∧
    (∀ n : Int, ¬ (0 ≤ n ∧ n < 225) → GomokuApp.aiMoveBranch (.int n) = .invalidMove) ∧
    GomokuApp.aiMoveBranch .nan = .invalidMove ∧
    (∀ negative : Bool, GomokuApp.aiMoveBranch (.huge negative) = .invalidMove) :=
  ⟨⟨by decide, by decide, rfl, rfl⟩,
    bestmove_resolves_pending (fun _ => none) (readyEngine.go (some 100000)).2 0
      bestmove300 "bestmove 300" (by decide) (by decide) rfl rfl⟩

/-- C18, as stated, fails: after the worker error `boom` on the ready channel
`busyEngine`, the pending request is rejected with the description, but the
next call `update(7)` is accepted: its promise is pending and its message has
been posted. -/
theorem worker_error_leaves_ready :
    (busyEngine.workerOnError "boom").promises[0]? =
      some (.rejected (.error "Worker error: boom")) ∧
    (busyEngine.workerOnError "boom").ready = true ∧
    ((busyEngine.workerOnError "boom").update 7).2.promises[
      ((busyEngine.workerOnError "boom").update 7).1]? = some .pending ∧
    ((busyEngine.workerOnError "boom").update 7).2.worker =
      some [.update 112, .update 7] := by
  decide

/-- C18, amended: the worker's `onerror` event rejects the pending request, if
any, with the error description `Worker error: ` followed by the message and
clears `pendingResolve`; it leaves `ready` and the worker as they were.  So
afterwards `update(index)`, `go(iters)`, `reset()` and `getState()` are
rejected as not ready, without a message, exactly when the channel was not
ready before the event; on a channel that was ready, with a worker, they are
accepted and post their message. -/
theorem worker_error_effect (self : EngineInterface) (message : String)
    (index : Int) (iters : Option Int) :
    (∀ p, self.pendingResolve = some p → self.promises[p]? = some .pending →
      (self.workerOnError message).promises[p]? =
        some (.rejected (.error ("Worker error: " ++ message)))) ∧
    (self.workerOnError message).pendingResolve = none ∧
    (self.workerOnError message).ready = self.ready ∧
    (self.workerOnError message).worker = self.worker ∧
    (self.ready = false →
      ∀ out ∈ [(self.workerOnError message).update index,
          (self.workerOnError message).go iters,
          (self.workerOnError message).reset, (self.workerOnError message).getState],
        Rejects (self.workerOnError message) out (.error "Engine not ready")) ∧
    (self.ready = true → ∀ sent, self.worker = some sent →
      ∀ om ∈ [((self.workerOnError message).update index, Outbound.update index),
          ((self.workerOnError message).go iters, Outbound.go (iters.getD 10000)),
          ((self.workerOnError message).reset, Outbound.reset),
          ((self.workerOnError message).getState, Outbound.state)],
        Accepts (self.workerOnError message) om.1 om.2) := by
  have hframe : (self.workerOnError message).pendingResolve = none ∧
      (self.workerOnError message).ready = self.ready ∧
      (self.workerOnError message).worker = self.worker := by
    unfold EngineInterface.workerOnError
    simp only
    obtain ⟨h1, h2, h3⟩ := settlePending_frame
      (if self.onError then
        { self with notified := self.notified ++ [.error (some ("Worker error: " ++ message))] }
        else self) (.rejected (.error ("Worker error: " ++ message)))
    refine ⟨h1, ?_, ?_⟩
    · rw [h2]; split_ifs <;> rfl
    · rw [h3]; split_ifs <;> rfl
  refine ⟨?_, hframe.1, hframe.2.1, hframe.2.2, ?_, ?_⟩
  · intro p hp hpp
    unfold EngineInterface.workerOnError
    simp only
    apply (settlePending_spec _ p _ ?_).2.2.2
    · split_ifs <;> exact hpp
    · split_ifs <;> exact hp
  · intro hready out hout
    have hr : (self.workerOnError message).ready = false := by rw [hframe.2.1, hready]
    simp only [List.mem_cons, List.mem_singleton, List.not_mem_nil, or_false] at hout
    rcases hout with rfl | rfl | rfl | rfl <;> exact request_rejects _ _ hr
  · intro hready sent hsent om hom
    have hr : (self.workerOnError message).ready = true := by rw [hframe.2.1, hready]
    have hw : (self.workerOnError message).worker = some sent := by rw [hframe.2.2, hsent]
    simp only [List.mem_cons, List.mem_singleton, List.not_mem_nil, or_false] at hom
    rcases hom with rfl | rfl | rfl | rfl <;> exact (request_accepts _ _ sent hr hw).1

end Gomoku
